import Mathlib

/-!
ITECH DC power supply helpers: serial and USBTMC request/response sequences.

Shallow embedding of `src/serial/RdWrtSrl.c` and `src/usbtmc/usbtmc.c`.

The VISA library is the environment.  Every transport call the C code issues is
appended to a log (`State.trace`); the statuses and reply bytes the library hands
back come from a script (`Device`, `SerialEnv`, `UsbEnv`).  Each step of a session
(open, identification write, identification read, command write, reply read) is
executed at most once per device and per call, so a script indexed by device and
step covers every combination of transport outcomes.

Statuses of calls whose result the C code stores but never tests
(`viSetAttribute`, `viClose`, `viFindNext`) do not appear in the script.
-/

namespace Itech

/-- C `char` and `unsigned char` code units. -/
abbrev CChar := Nat

/-- The constant `VI_SUCCESS`; a status is a failure exactly when it is below it. -/
def VI_SUCCESS : Int := 0

/-- Value of the static `instr`: either the session returned by a successful
`viOpen` of the running call on device `dev`, or anything else (what an earlier
call left there, or what a failed `viOpen` stored). -/
inductive Handle where
  | stale
  | session (dev : Nat)
deriving DecidableEq, Repr

/-- Serial attributes set by the serial operations. -/
inductive Attr where
  | VI_ATTR_TMO_VALUE
  | VI_ATTR_ASRL_BAUD
  | VI_ATTR_ASRL_DATA_BITS
  | VI_ATTR_ASRL_PARITY
  | VI_ATTR_ASRL_STOP_BITS
  | VI_ATTR_TERMCHAR_EN
  | VI_ATTR_TERMCHAR
deriving DecidableEq, Repr

/-- The constant `VI_ASRL_PAR_NONE` of the VISA header. -/
def VI_ASRL_PAR_NONE : Nat := 0
/-- The constant `VI_ASRL_STOP_ONE` of the VISA header. -/
def VI_ASRL_STOP_ONE : Nat := 10
/-- The constant `VI_TRUE` of the VISA header. -/
def VI_TRUE : Nat := 1

/-- One transport call, with the status returned where the code tests it. -/
inductive Call where
  | openDefaultRM (status : Int)
  | findRsrc (status : Int)
  | findNext
  | open (dev : Nat) (status : Int)
  | setAttribute (h : Handle) (attr : Attr) (value : Nat)
  | write (h : Handle) (bytes : List CChar) (status : Int)
  | read (h : Handle) (count : Nat) (status : Int)
  | close (h : Handle)
  | closeRM
deriving DecidableEq, Repr

/-- What a `viRead` does: its status and the bytes it stores at the start of the
buffer; `retCount` is the number of these bytes. -/
structure ReadReply where
  status : Int
  data : List CChar
deriving DecidableEq, Repr

/-- Script of one device: the outcome of each step of its session. -/
structure Device where
  openSt : Int
  idnWriteSt : Int
  idnRead : ReadReply
  cmdWriteSt : Int
  cmdRead : ReadReply
deriving DecidableEq, Repr

/-- Environment of a serial operation: the resource manager and the one port. -/
structure SerialEnv where
  rmSt : Int
  dev : Device
deriving DecidableEq, Repr

/-- Environment of a USB operation: the resource manager, the enumeration status
and the enumerated devices (`numInstrs` is their number). -/
structure UsbEnv where
  rmSt : Int
  findSt : Int
  devs : List Device
deriving DecidableEq, Repr

/-- Exact decimal value `(-1)^neg * mant * 10^exp10` of a numeric token; the
`double` stored by `%lf` is its correctly rounded image. -/
structure Decimal where
  neg : Bool
  mant : Nat
  exp10 : Int
deriving DecidableEq, Repr

/-- The rational number a `Decimal` stands for. -/
def Decimal.toRat (d : Decimal) : ℚ :=
  (if d.neg then -1 else 1) * (d.mant : ℚ) * (10 : ℚ) ^ d.exp10

/-- Statics of the C files and the caller's result locations, plus the log.
`buffer`, `stringinput` and `resultString` are the memory from the start of the
array on (100 and 512 bytes belong to the first two), and `cmdTop` is one past the
highest index of `stringinput` written during the call.  The static `status` is
tested right where it is assigned, so the script's status is tested instead;
`defaultRM`, `findList`, `instrResourceString`, `numInstrs` and `writeCount` are
values of the library that the code only passes back to it. -/
structure State where
  instr : Handle
  retCount : Nat
  buffer : List CChar
  stringinput : List CChar
  cmdTop : Nat
  resultString : List CChar
  result : Decimal
  trace : List Call
deriving DecidableEq, Repr

/-- How a call ends: `exit(EXIT_FAILURE)` or a returned `int`. -/
inductive Ret where
  | exited
  | returned (v : Int)
deriving DecidableEq, Repr

/-! ## C library -/

/-- A character other than NUL. -/
def nonNul (c : CChar) : Bool := c != 0

/-- Characters of the C string stored at the start of `s`: those before the first NUL. -/
def cstr (s : List CChar) : List CChar := s.takeWhile nonNul

/-- The C function `strlen`: the number of characters before the first NUL. -/
def strlen (s : List CChar) : Nat := (cstr s).length

/-- Store `bs` at offset `off` of the memory `mem` (flat memory: a store past
the end of `mem` lands in what follows it). -/
def poke (mem : List CChar) (off : Nat) (bs : List CChar) : List CChar :=
  mem.take off ++ bs ++ mem.drop (off + bs.length)

/-- The C function `strcpy(dst, src)`: it stores the characters of `src` and the
terminating NUL at the start of `dst`. -/
def strcpy (dst src : List CChar) : List CChar := poke dst 0 (cstr src ++ [0])

/-- The C function `strcat(dst, src)`: it stores the characters of `src` and the
terminating NUL from the NUL of `dst` on. -/
def strcat (dst src : List CChar) : List CChar := poke dst (strlen dst) (cstr src ++ [0])

/-- The C function `strncpy(dst, src, n)`: it stores the characters of `src`
before its first NUL, at most `n` of them, then NULs up to `n` bytes in all. -/
def strncpy (dst src : List CChar) (n : Nat) : List CChar :=
  poke dst 0 (cstr (src.take n) ++ List.replicate (n - strlen (src.take n)) 0)

/-- The C function `isspace` in the C locale. -/
def isspace (c : CChar) : Bool := c == 32 || (9 ≤ c && c ≤ 13)

/-- The C function `isdigit`. -/
def isdigit (c : CChar) : Bool := 48 ≤ c && c ≤ 57

/-- Longest run of decimal digits: accumulated value, number of digits, rest. -/
def scanDigits : List CChar → Nat → Nat → Nat × Nat × List CChar
  | [], acc, n => (acc, n, [])
  | c :: cs, acc, n =>
    if isdigit c then scanDigits cs (acc * 10 + (c - 48)) (n + 1) else (acc, n, c :: cs)

/-- Optional sign: whether it is `-`, and the rest. -/
def scanSign : List CChar → Bool × List CChar
  | 45 :: cs => (true, cs)
  | 43 :: cs => (false, cs)
  | cs => (false, cs)

/-- The conversion `%lf` of `sscanf` on the C string `s`, a function of the C
library that is no code of this repository, modelled for decimal input: white
space is skipped, then sign, digits with an optional point, and an optional
exponent; `none` is a matching failure, on which nothing is stored.  On every
reply that is a plain decimal number (`plainDecimal`) and on a reply that starts
with no number at all the model gives what the library stores.  The hexadecimal,
`inf` and `nan` forms and an exponent without digits are outside the model, and
no theorem below draws a value from such input. -/
def sscanf_lf (s : List CChar) : Option Decimal :=
  let s1 := s.dropWhile isspace
  let (neg, s2) := scanSign s1
  let (ip, ni, s3) := scanDigits s2 0 0
  let (m, nf, s4) :=
    match s3 with
    | 46 :: r => scanDigits r ip 0
    | _ => (ip, 0, s3)
  if ni + nf = 0 then none
  else
    match s4 with
    | [] => some ⟨neg, m, -(nf : Int)⟩
    | e :: r =>
      if e = 101 ∨ e = 69 then
        let (eneg, r1) := scanSign r
        let (ev, ne, _) := scanDigits r1 0 0
        if ne = 0 then none
        else some ⟨neg, m, (if eneg then -(ev : Int) else (ev : Int)) - (nf : Int)⟩
      else some ⟨neg, m, -(nf : Int)⟩

/-! ## String literals of the sources -/

/-- The bytes of `"*IDN?\n"`. -/
def IDN_QUERY : List CChar := [42, 73, 68, 78, 63, 10]
/-- The bytes of `"OUTP 1\n"`. -/
def OUTP_ON : List CChar := [79, 85, 84, 80, 32, 49, 10]
/-- The bytes of `"OUTP 0\n"`. -/
def OUTP_OFF : List CChar := [79, 85, 84, 80, 32, 48, 10]
/-- The bytes of `"\n"`. -/
def NEWLINE : List CChar := [10]

/-! ## Transport calls and buffer steps -/

/-- Append a call to the log. -/
def State.log (st : State) (c : Call) : State := { st with trace := st.trace ++ [c] }

/-- Entry of an operation: the log of this call is empty, nothing has been stored
in `stringinput` yet, and `instr` holds no session of this call. -/
def State.enter (st : State) : State :=
  { st with instr := Handle.stale, cmdTop := 0, trace := [] }

/-- The call `viOpenDefaultRM(&defaultRM)`. -/
def viOpenDefaultRM (s : Int) (st : State) : State := st.log (Call.openDefaultRM s)

/-- The call `viFindRsrc(defaultRM, "USB?*INSTR", &findList, &numInstrs, instrResourceString)`. -/
def viFindRsrc (s : Int) (st : State) : State := st.log (Call.findRsrc s)

/-- The call `viFindNext(findList, instrResourceString)`. -/
def viFindNext (st : State) : State := st.log Call.findNext

/-- The call `viOpen(defaultRM, ..., &instr)` on device `dev` with status `s`. -/
def viOpen (dev : Nat) (s : Int) (st : State) : State :=
  { st with
    instr := if s < VI_SUCCESS then Handle.stale else Handle.session dev
    trace := st.trace ++ [Call.open dev s] }

/-- The call `viSetAttribute(instr, attr, value)`. -/
def viSetAttribute (attr : Attr) (value : Nat) (st : State) : State :=
  st.log (Call.setAttribute st.instr attr value)

/-- The call `viWrite(instr, (ViBuf)stringinput, (ViUInt32)strlen(stringinput), &writeCount)`. -/
def viWrite (s : Int) (st : State) : State :=
  st.log (Call.write st.instr (st.stringinput.take (strlen st.stringinput)) s)

/-- The call `viRead(instr, buffer, 100, &retCount)`. -/
def viRead (r : ReadReply) (st : State) : State :=
  { st with
    buffer := poke st.buffer 0 (r.data.take 100)
    retCount := (r.data.take 100).length
    trace := st.trace ++ [Call.read st.instr 100 r.status] }

/-- The call `viClose(instr)`. -/
def viClose (st : State) : State := st.log (Call.close st.instr)

/-- The call `viClose(defaultRM)`. -/
def viCloseRM (st : State) : State := st.log Call.closeRM

/-- The statement `strcpy(stringinput, src)`; `cmdTop` records the bytes stored. -/
def strcpyCmd (src : List CChar) (st : State) : State :=
  { st with
    stringinput := strcpy st.stringinput src
    cmdTop := max st.cmdTop (strlen src + 1) }

/-- The statement `strcat(stringinput, src)`; `cmdTop` records the bytes stored. -/
def strcatCmd (src : List CChar) (st : State) : State :=
  { st with
    stringinput := strcat st.stringinput src
    cmdTop := max st.cmdTop (strlen st.stringinput + strlen src + 1) }

/-- The success branch of the reply read of the query operations:
`sscanf(buffer, "%lf", result); strncpy(resultString, buffer, retCount);`. -/
def storeReply (st : State) : State :=
  { st with
    result := (sscanf_lf (cstr st.buffer)).getD st.result
    resultString := strncpy st.resultString st.buffer st.retCount }

/-! ## `usbtmc.c` -/

/-- The `for (i = 0; i < numInstrs; i++)` loop from index `i` on, over the devices
still to be visited; `body` is one iteration. -/
def usbLoop (body : Nat → Device → State → State) : Nat → List Device → State → State
  | _, [], st => st
  | i, d :: ds, st => usbLoop body (i + 1) ds (body i d st)

/-- One iteration of the loop of `ItechDcPowerOutput`. -/
def outputDevice (state : Nat) (i : Nat) (d : Device) (st : State) : State :=
  let st := if i > 0 then viFindNext st else st
  let st := viOpen i d.openSt st
  if d.openSt < VI_SUCCESS then st
  else
    let st := strcpyCmd IDN_QUERY st
    let st := viWrite d.idnWriteSt st
    if d.idnWriteSt < VI_SUCCESS then viClose st
    else
      let st := viRead d.idnRead st
      let st := if state ≠ 0 then strcpyCmd OUTP_ON st else strcpyCmd OUTP_OFF st
      let st := viWrite d.cmdWriteSt st
      if d.cmdWriteSt < VI_SUCCESS then viClose st
      else viClose st

/-- The function `ItechDcPowerOutput(state)` of `usbtmc.c`. -/
def ItechDcPowerOutput (state : Nat) (env : UsbEnv) (st0 : State) : Ret × State :=
  let st := viOpenDefaultRM env.rmSt st0.enter
  if env.rmSt < VI_SUCCESS then (Ret.exited, st)
  else
    let st := viFindRsrc env.findSt st
    if env.findSt < VI_SUCCESS then (Ret.returned env.findSt, viCloseRM st)
    else
      let st := usbLoop (outputDevice state) 0 env.devs st
      (Ret.returned 0, viCloseRM st)

/-- One iteration of the loop of `ItechDcPowerWrite`. -/
def writeDevice (command : List CChar) (i : Nat) (d : Device) (st : State) : State :=
  let st := if i > 0 then viFindNext st else st
  let st := viOpen i d.openSt st
  if d.openSt < VI_SUCCESS then st
  else
    let st := strcpyCmd IDN_QUERY st
    let st := viWrite d.idnWriteSt st
    if d.idnWriteSt < VI_SUCCESS then viClose st
    else
      let st := viRead d.idnRead st
      let st := strcpyCmd command st
      let st := viWrite d.cmdWriteSt st
      if d.cmdWriteSt < VI_SUCCESS then viClose st
      else viClose st

/-- The function `ItechDcPowerWrite(command)` of `usbtmc.c`. -/
def ItechDcPowerWrite (command : List CChar) (env : UsbEnv) (st0 : State) : Ret × State :=
  let st := viOpenDefaultRM env.rmSt st0.enter
  if env.rmSt < VI_SUCCESS then (Ret.exited, st)
  else
    let st := viFindRsrc env.findSt st
    if env.findSt < VI_SUCCESS then (Ret.returned env.findSt, viCloseRM st)
    else
      let st := usbLoop (writeDevice command) 0 env.devs st
      (Ret.returned 0, viCloseRM st)

/-- One iteration of the loop of `ItechDcPowerQuery`. -/
def queryDevice (command : List CChar) (i : Nat) (d : Device) (st : State) : State :=
  let st := if i > 0 then viFindNext st else st
  let st := viOpen i d.openSt st
  if d.openSt < VI_SUCCESS then st
  else
    let st := strcpyCmd IDN_QUERY st
    let st := viWrite d.idnWriteSt st
    if d.idnWriteSt < VI_SUCCESS then viClose st
    else
      let st := viRead d.idnRead st
      let st := strcpyCmd command st
      let st := viWrite d.cmdWriteSt st
      if d.cmdWriteSt < VI_SUCCESS then viClose st
      else
        let st := viRead d.cmdRead st
        let st := if d.cmdRead.status < VI_SUCCESS then st else storeReply st
        viClose st

/-- The function `ItechDcPowerQuery(command, resultString, result)` of `usbtmc.c`. -/
def ItechDcPowerQuery (command : List CChar) (env : UsbEnv) (st0 : State) : Ret × State :=
  let st := viOpenDefaultRM env.rmSt st0.enter
  if env.rmSt < VI_SUCCESS then (Ret.exited, st)
  else
    let st := viFindRsrc env.findSt st
    if env.findSt < VI_SUCCESS then (Ret.returned env.findSt, viCloseRM st)
    else
      let st := usbLoop (queryDevice command) 0 env.devs st
      (Ret.returned 0, viCloseRM st)

/-! ## `RdWrtSrl.c` -/

/-- The seven `viSetAttribute` calls configuring the serial port. -/
def configurePort (st : State) : State :=
  let st := viSetAttribute Attr.VI_ATTR_TMO_VALUE 5000 st
  let st := viSetAttribute Attr.VI_ATTR_ASRL_BAUD 9600 st
  let st := viSetAttribute Attr.VI_ATTR_ASRL_DATA_BITS 8 st
  let st := viSetAttribute Attr.VI_ATTR_ASRL_PARITY VI_ASRL_PAR_NONE st
  let st := viSetAttribute Attr.VI_ATTR_ASRL_STOP_BITS VI_ASRL_STOP_ONE st
  let st := viSetAttribute Attr.VI_ATTR_TERMCHAR_EN VI_TRUE st
  viSetAttribute Attr.VI_ATTR_TERMCHAR 10 st

/-- The label `Close:` of the serial operations and what follows it. -/
def serialClose (st : State) : Ret × State :=
  let st := viClose st
  let st := viCloseRM st
  (Ret.returned 0, st)

/-- The function `ItechDcPowerWriteSerial(command)` of `RdWrtSrl.c`; the port `ASRL1::INSTR` is device 0. -/
def ItechDcPowerWriteSerial (command : List CChar) (env : SerialEnv) (st0 : State) :
    Ret × State :=
  let st := viOpenDefaultRM env.rmSt st0.enter
  if env.rmSt < VI_SUCCESS then (Ret.exited, st)
  else
    let st := viOpen 0 env.dev.openSt st
    if env.dev.openSt < VI_SUCCESS then serialClose st
    else
      let st := configurePort st
      let st := strcpyCmd IDN_QUERY st
      let st := viWrite env.dev.idnWriteSt st
      if env.dev.idnWriteSt < VI_SUCCESS then serialClose st
      else
        let st := viRead env.dev.idnRead st
        let st := strcpyCmd command st
        let st := strcatCmd NEWLINE st
        let st := viWrite env.dev.cmdWriteSt st
        if env.dev.cmdWriteSt < VI_SUCCESS then serialClose st
        else serialClose st

/-- The function `ItechDcPowerQuerySerial(command, resultString, result)` of
`RdWrtSrl.c`; the port
`ASRL1::INSTR` is device 0. -/
def ItechDcPowerQuerySerial (command : List CChar) (env : SerialEnv) (st0 : State) :
    Ret × State :=
  let st := viOpenDefaultRM env.rmSt st0.enter
  if env.rmSt < VI_SUCCESS then (Ret.exited, st)
  else
    let st := viOpen 0 env.dev.openSt st
    if env.dev.openSt < VI_SUCCESS then serialClose st
    else
      let st := configurePort st
      let st := strcpyCmd IDN_QUERY st
      let st := viWrite env.dev.idnWriteSt st
      if env.dev.idnWriteSt < VI_SUCCESS then serialClose st
      else
        let st := viRead env.dev.idnRead st
        let st := strcpyCmd command st
        let st := strcatCmd NEWLINE st
        let st := viWrite env.dev.cmdWriteSt st
        if env.dev.cmdWriteSt < VI_SUCCESS then serialClose st
        else
          let st := viRead env.dev.cmdRead st
          let st := if env.dev.cmdRead.status < VI_SUCCESS then st else storeReply st
          serialClose st

/-! ## Reading the log -/

/-- The session handle a call is issued on, for the calls that take one. -/
def Call.handle? : Call → Option Handle
  | Call.setAttribute h _ _ => some h
  | Call.write h _ _ => some h
  | Call.read h _ _ => some h
  | Call.close h => some h
  | _ => none

/-- Devices that receive the identification probe: a write of `"*IDN?\n"` on the
session of device `i`, issued right after the open of device `i`. -/
def probes : List Call → List Nat
  | Call.open i _ :: Call.write h bytes _ :: rest =>
    if h = Handle.session i ∧ bytes = IDN_QUERY then i :: probes rest else probes rest
  | _ :: rest => probes rest
  | [] => []

/-- The bytes of the writes issued on handle `h`, in order. -/
def writtenBytes (h : Handle) : List Call → List (List CChar)
  | [] => []
  | Call.write h1 bytes _ :: rest =>
    if h1 = h then bytes :: writtenBytes h rest else writtenBytes h rest
  | _ :: rest => writtenBytes h rest

/-- Session discipline of a log, read from left to right with the session that
is open at that point (`live`): a session is opened only when none is open, a close
of a session handle closes the one that is open, and the resource manager is
closed when no session is open, as the last call of the log.  A close of a handle
that is no session of this call (`Handle.stale`) opens and closes nothing. -/
def sessionsOk : Option Nat → List Call → Bool
  | _, [] => false
  | live, Call.closeRM :: rest => live.isNone && rest.isEmpty
  | live, Call.open i s :: rest =>
    live.isNone && sessionsOk (if s < VI_SUCCESS then none else some i) rest
  | live, Call.close (Handle.session i) :: rest => (live == some i) && sessionsOk none rest
  | live, _ :: rest => sessionsOk live rest

/-! ## The calls of one loop iteration, as a function of the script -/

/-- Reads and writes that follow the identification write in an iteration of
`ItechDcPowerOutput`. -/
def outputIos (state : Nat) (i : Nat) (d : Device) : List Call :=
  if d.idnWriteSt < VI_SUCCESS then []
  else [Call.read (Handle.session i) 100 d.idnRead.status,
        Call.write (Handle.session i) (if state ≠ 0 then OUTP_ON else OUTP_OFF) d.cmdWriteSt]

/-- Reads and writes that follow the identification write in an iteration of
`ItechDcPowerWrite`. -/
def writeIos (command : List CChar) (i : Nat) (d : Device) : List Call :=
  if d.idnWriteSt < VI_SUCCESS then []
  else [Call.read (Handle.session i) 100 d.idnRead.status,
        Call.write (Handle.session i) (cstr command) d.cmdWriteSt]

/-- Reads and writes that follow the identification write in an iteration of
`ItechDcPowerQuery`. -/
def queryIos (command : List CChar) (i : Nat) (d : Device) : List Call :=
  if d.idnWriteSt < VI_SUCCESS then []
  else
    [Call.read (Handle.session i) 100 d.idnRead.status,
     Call.write (Handle.session i) (cstr command) d.cmdWriteSt] ++
    (if d.cmdWriteSt < VI_SUCCESS then [] else [Call.read (Handle.session i) 100 d.cmdRead.status])

/-- Calls of iteration `i` on device `d`, given the reads and writes `ios` that
follow the identification write. -/
def devCalls (ios : Nat → Device → List Call) (i : Nat) (d : Device) : List Call :=
  (if i > 0 then [Call.findNext] else []) ++
  (if d.openSt < VI_SUCCESS then [Call.open i d.openSt]
   else [Call.open i d.openSt, Call.write (Handle.session i) IDN_QUERY d.idnWriteSt] ++
        ios i d ++ [Call.close (Handle.session i)])

/-- Calls of the iterations from index `i` on. -/
def loopCalls (ios : Nat → Device → List Call) : Nat → List Device → List Call
  | _, [] => []
  | i, d :: ds => devCalls ios i d ++ loopCalls ios (i + 1) ds

/-- Calls of a whole USB operation. -/
def usbCalls (ios : Nat → Device → List Call) (env : UsbEnv) : List Call :=
  if env.rmSt < VI_SUCCESS then [Call.openDefaultRM env.rmSt]
  else if env.findSt < VI_SUCCESS then
    [Call.openDefaultRM env.rmSt, Call.findRsrc env.findSt, Call.closeRM]
  else
    [Call.openDefaultRM env.rmSt, Call.findRsrc env.findSt] ++
      loopCalls ios 0 env.devs ++ [Call.closeRM]

/-- Every call of `ios i d` is a read or a write on the session of device `i`. -/
def IosOnSession (ios : Nat → Device → List Call) : Prop :=
  ∀ i d c, c ∈ ios i d →
    (∃ b s, c = Call.write (Handle.session i) b s) ∨ (∃ n s, c = Call.read (Handle.session i) n s)

/-- What follows the open of device `i` when the iteration of device `i` ends
with it, `post` being the calls after the open and `n` the number of enumerated
devices: the close of the resource manager and nothing else when device `i` is
the last one, and otherwise the find-next and open of device `i + 1`. -/
def NextDeviceOrEnd (n i : Nat) (post : List Call) : Prop :=
  (i + 1 = n ∧ post = [Call.closeRM]) ∨
  (i + 1 < n ∧ ∃ s r, post = Call.findNext :: Call.open (i + 1) s :: r)

/-- Reading of a log from left to right: at each failed open, what follows it is
as `NextDeviceOrEnd` says. -/
def FailedOpensOk (n : Nat) : List Call → Prop
  | [] => True
  | Call.open i s :: rest =>
    (s < VI_SUCCESS → NextDeviceOrEnd n i rest) ∧ FailedOpensOk n rest
  | _ :: rest => FailedOpensOk n rest

/-- What the sweep of a USB operation `r` does when device `k` (index of the loop,
from 0) of `n` enumerated devices cannot be opened and the others can:
the open of device `k` is attempted; wherever it stands in the log, the call
right after it is the find-next of the next device (followed by that
device's open), or the close of the resource manager when `k` is the last device, so the
iteration of device `k` issues no call but the open; every set-attribute, write,
read and close of the log is on the session of a device other than `k` (none is
on a handle that is no session); the identification probe goes to the other
devices in enumeration order; the log ends with the close of the resource
manager; and 0 is returned. -/
def SkipsDevice (k n : Nat) (r : Ret × State) : Prop :=
  (∃ s, s < VI_SUCCESS ∧ Call.open k s ∈ r.2.trace) ∧
  (∀ pre post s, r.2.trace = pre ++ Call.open k s :: post → NextDeviceOrEnd n k post) ∧
  (∀ c ∈ r.2.trace, ∀ h, c.handle? = some h → ∃ j, h = Handle.session j ∧ j ≠ k ∧ j < n) ∧
  probes r.2.trace = (List.range n).filter (fun j => j ≠ k) ∧
  r.2.trace.getLast? = some Call.closeRM ∧
  r.1 = Ret.returned 0

/-- A state at the entry of a call: zeroed statics, a 16-byte result string. -/
def exState : State :=
  { instr := Handle.stale, retCount := 0, buffer := List.replicate 100 0,
    stringinput := List.replicate 512 0, cmdTop := 0,
    resultString := List.replicate 16 0, result := ⟨false, 0, 0⟩, trace := [] }

/-- A device on which every step succeeds; it answers the identification probe
with `"IT\n"` and the command with `reply`. -/
def exDevice (reply : List CChar) : Device :=
  { openSt := 0, idnWriteSt := 0, idnRead := ⟨0, [73, 84, 10]⟩, cmdWriteSt := 0,
    cmdRead := ⟨0, reply⟩ }

/-- A device that cannot be opened. -/
def exDeadDevice : Device :=
  { openSt := -1, idnWriteSt := 0, idnRead := ⟨0, []⟩, cmdWriteSt := 0, cmdRead := ⟨0, []⟩ }

/-- Three enumerated devices, the second of which cannot be opened. -/
def exEnvSkip : UsbEnv :=
  { rmSt := 0, findSt := 0, devs := [exDevice [49, 10], exDeadDevice, exDevice [50, 10]] }

/-- The command `"MEAS?\n"`. -/
def exCommand : List CChar := [77, 69, 65, 83, 63, 10]

/-- Two enumerated devices; the first answers the identification probe, the read
of the second one's answer fails. -/
def exEnvOutput : UsbEnv :=
  { rmSt := 0, findSt := 0,
    devs := [exDevice [], { exDevice [] with idnRead := ⟨-1073807339, []⟩ }] }

/-- The seven set-attribute calls of the serial operations, on handle `h`. -/
def portCalls (h : Handle) : List Call :=
  [Call.setAttribute h Attr.VI_ATTR_TMO_VALUE 5000,
   Call.setAttribute h Attr.VI_ATTR_ASRL_BAUD 9600,
   Call.setAttribute h Attr.VI_ATTR_ASRL_DATA_BITS 8,
   Call.setAttribute h Attr.VI_ATTR_ASRL_PARITY VI_ASRL_PAR_NONE,
   Call.setAttribute h Attr.VI_ATTR_ASRL_STOP_BITS VI_ASRL_STOP_ONE,
   Call.setAttribute h Attr.VI_ATTR_TERMCHAR_EN VI_TRUE,
   Call.setAttribute h Attr.VI_ATTR_TERMCHAR 10]

/-- Calls of a serial operation as a function of the script; `query` tells the
query operation, which reads a reply after the command write. -/
def serialCalls (query : Bool) (command : List CChar) (env : SerialEnv) : List Call :=
  if env.rmSt < VI_SUCCESS then [Call.openDefaultRM env.rmSt]
  else
    [Call.openDefaultRM env.rmSt, Call.open 0 env.dev.openSt] ++
    (if env.dev.openSt < VI_SUCCESS then [Call.close Handle.stale]
     else
       portCalls (Handle.session 0) ++
       [Call.write (Handle.session 0) IDN_QUERY env.dev.idnWriteSt] ++
       (if env.dev.idnWriteSt < VI_SUCCESS then []
        else
          [Call.read (Handle.session 0) 100 env.dev.idnRead.status,
           Call.write (Handle.session 0) (cstr command ++ NEWLINE) env.dev.cmdWriteSt] ++
          (if query = true ∧ ¬ env.dev.cmdWriteSt < VI_SUCCESS then
             [Call.read (Handle.session 0) 100 env.dev.cmdRead.status]
           else [])) ++
       [Call.close (Handle.session 0)]) ++
    [Call.closeRM]

/-- A serial port on which every step succeeds and the command is answered with
`reply`. -/
def exSerialEnv (reply : List CChar) : SerialEnv := { rmSt := 0, dev := exDevice reply }

/-- The reply read of device `d` is reached and succeeds: open, identification
write, command write and reply read all succeed. -/
def Device.replies (d : Device) : Prop :=
  VI_SUCCESS ≤ d.openSt ∧ VI_SUCCESS ≤ d.idnWriteSt ∧ VI_SUCCESS ≤ d.cmdWriteSt ∧
    VI_SUCCESS ≤ d.cmdRead.status

/-- What `strncpy` stores for a source whose first `bs.length` bytes are `bs`: the
bytes of `bs` before its first NUL, then NULs up to the length of `bs`. -/
def padded (bs : List CChar) : List CChar :=
  cstr bs ++ List.replicate (bs.length - strlen bs) 0

/-- The reply `"12.345\n"`. -/
def exReply : List CChar := [49, 50, 46, 51, 52, 53, 10]

/-- Two enumerated devices that answer the command with `"12\n"` and `"7\n"`. -/
def exEnvTwoReplies : UsbEnv :=
  { rmSt := 0, findSt := 0, devs := [exDevice [49, 50, 10], exDevice [55, 10]] }

/-- Three enumerated devices: the first answers `"7\n"`, the second `"12.345\n"`,
the third cannot be opened. -/
def exEnvLastReply : UsbEnv :=
  { rmSt := 0, findSt := 0, devs := [exDevice [55, 10], exDevice exReply, exDeadDevice] }

/-- What a USB operation `r` does when enumeration fails with status `s` after
the resource manager opened with status `rm`: the only calls are the open of the
resource manager, the enumeration and the close of the resource manager, the
caller's result locations are as in the state `st0` before the call, and `s` is
returned. -/
def EnumerationFailed (rm s : Int) (st0 : State) (r : Ret × State) : Prop :=
  r.2.trace = [Call.openDefaultRM rm, Call.findRsrc s, Call.closeRM] ∧
  r.2.resultString = st0.resultString ∧ r.2.result = st0.result ∧
  r.1 = Ret.returned s

/-- The resource manager opens and enumeration fails with `VI_ERROR_RSRC_NFOUND`. -/
def exEnvNoResource : UsbEnv :=
  { rmSt := 0, findSt := -1073807343, devs := [exDevice exReply] }

/-- A successful open of device `i`. -/
def isOpenOk (i : Nat) : Call → Bool
  | Call.open j s => j == i && !(decide (s < VI_SUCCESS))
  | _ => false

/-- The operation `r` returns, and its log keeps the session discipline: every
session it opened is closed exactly once, before the next open and before the
close of the resource manager, which is the last call and the only close of the
resource manager; the closes of the session of a device are as many as its
successful opens. -/
def ReleasesSessions (r : Ret × State) : Prop :=
  (∃ v, r.1 = Ret.returned v) ∧ sessionsOk none r.2.trace = true ∧
  r.2.trace.count Call.closeRM = 1 ∧
  ∀ i, r.2.trace.count (Call.close (Handle.session i)) = r.2.trace.countP (isOpenOk i)

/-- Three enumerated devices: the first cannot be written to, the second cannot
be opened, the third answers `"12.345\n"`. -/
def exEnvMixed : UsbEnv :=
  { rmSt := 0, findSt := 0,
    devs := [{ exDevice [] with idnWriteSt := -1 }, exDeadDevice, exDevice exReply] }

/-- A serial port that cannot be opened. -/
def exSerialEnvDead : SerialEnv := { rmSt := 0, dev := exDeadDevice }

/-- Two enumerated devices: the first answers `first`, the second cannot be opened. -/
def exEnvLastDead (first : List CChar) : UsbEnv :=
  { rmSt := 0, findSt := 0, devs := [exDevice first, exDeadDevice] }

/-- Two enumerated devices that answer the command with `first` and `second`. -/
def exEnvPair (first second : List CChar) : UsbEnv :=
  { rmSt := 0, findSt := 0, devs := [exDevice first, exDevice second] }

/-- One enumerated device on which every step succeeds. -/
def exEnvOne : UsbEnv := { rmSt := 0, findSt := 0, devs := [exDevice exReply] }

/-- A device that answers the identification probe with `idn` and the command
with the single byte `"\n"`. -/
def exDeviceBlankReply (idn : List CChar) : Device :=
  { openSt := 0, idnWriteSt := 0, idnRead := ⟨0, idn⟩, cmdWriteSt := 0, cmdRead := ⟨0, [10]⟩ }

/-- A device on which every step succeeds but the read of the command's reply,
which fails with `VI_ERROR_TMO` after storing `partialReply`. -/
def exDeviceReadFails (partialReply : List CChar) : Device :=
  { openSt := 0, idnWriteSt := 0, idnRead := ⟨0, [73, 84, 10]⟩, cmdWriteSt := 0,
    cmdRead := ⟨-1073807339, partialReply⟩ }

/-- The resource manager opens, enumeration succeeds and finds `devs`. -/
def exEnvOf (devs : List Device) : UsbEnv := { rmSt := 0, findSt := 0, devs := devs }

/-- The lists `a` and `b` hold the same byte, or both none, at every index from
`n` on. -/
def SameFrom (n : Nat) (a b : List CChar) : Prop := ∀ j, n ≤ j → a[j]? = b[j]?

/-- A state at the entry of a call whose 16-byte result string holds the
character `'x'` everywhere. -/
def exStateFilled : State := { exState with resultString := List.replicate 16 120 }

/-- The handle of a set-attribute, write or read call. -/
def Call.io? : Call → Option Handle
  | Call.setAttribute h _ _ => some h
  | Call.write h _ _ => some h
  | Call.read h _ _ => some h
  | _ => none

/-- Every set-attribute, write and read call of the log `t` is issued on the
session of a device `i` whose open succeeded earlier in the log, with no close of
that session between the open and the call. -/
def IoOnOpenSession (t : List Call) : Prop :=
  ∀ pre post c h, t = pre ++ c :: post → c.io? = some h →
    ∃ i s pre1 pre2, h = Handle.session i ∧ pre = pre1 ++ Call.open i s :: pre2 ∧
      VI_SUCCESS ≤ s ∧ Call.close (Handle.session i) ∉ pre2

/-- No call of the log `t` is issued on a session of a device whose open failed. -/
def NoIoAfterFailedOpen (t : List Call) : Prop :=
  ∀ i s, Call.open i s ∈ t → s < VI_SUCCESS → ∀ c ∈ t, c.handle? ≠ some (Handle.session i)

/-- Reading of a log from left to right with the session that is open at that
point (`live`): every set-attribute, write and read is on that session. -/
def IoOnLive : Option Nat → List Call → Prop
  | _, [] => True
  | _, Call.open i s :: rest => IoOnLive (if s < VI_SUCCESS then none else some i) rest
  | live, Call.close (Handle.session i) :: rest =>
    IoOnLive (if live = some i then none else live) rest
  | live, Call.setAttribute h _ _ :: rest =>
    (∃ i, h = Handle.session i ∧ live = some i) ∧ IoOnLive live rest
  | live, Call.write h _ _ :: rest =>
    (∃ i, h = Handle.session i ∧ live = some i) ∧ IoOnLive live rest
  | live, Call.read h _ _ :: rest =>
    (∃ i, h = Handle.session i ∧ live = some i) ∧ IoOnLive live rest
  | live, _ :: rest => IoOnLive live rest

/-- A serial port that opens but rejects the identification probe. -/
def exSerialEnvWriteFails : SerialEnv :=
  { rmSt := 0, dev := { exDevice [] with idnWriteSt := -1 } }

/-- In the log of the operation `r`, set-attribute, write and read calls are
issued only on a session opened successfully by this call and not yet closed, and
no call at all is issued on a session of a device whose open failed. -/
def UsesOnlyOpenSessions (r : Ret × State) : Prop :=
  IoOnOpenSession r.2.trace ∧ NoIoAfterFailedOpen r.2.trace

/-- What follows a failed write on handle `h` in the log of an operation over `n`
devices (`n = 1` for the serial port), `post` being the calls after the write: the
next call is the close of `h`, no later call is on `h`, and the close is followed
by the close of the resource manager when `h` is the session of the last device,
and otherwise by the find-next and open of the next enumerated device. -/
def ClosesThenContinues (n : Nat) (h : Handle) (post : List Call) : Prop :=
  ∃ rest, post = Call.close h :: rest ∧ (∀ c ∈ rest, c.handle? ≠ some h) ∧
    ∃ i, h = Handle.session i ∧
      ((i + 1 = n ∧ rest = [Call.closeRM]) ∨
       (i + 1 < n ∧ ∃ s r, rest = Call.findNext :: Call.open (i + 1) s :: r))

/-- Every failed write of the log `t` is followed as `ClosesThenContinues` says. -/
def FailedWriteEndsSession (n : Nat) (t : List Call) : Prop :=
  ∀ pre post h bytes s, t = pre ++ Call.write h bytes s :: post → s < VI_SUCCESS →
    ClosesThenContinues n h post

/-- Reading of a log from left to right: at each failed write, what follows it is
as `ClosesThenContinues` says. -/
def FailedWritesOk (n : Nat) : List Call → Prop
  | [] => True
  | Call.write h _ s :: rest =>
    (s < VI_SUCCESS → ClosesThenContinues n h rest) ∧ FailedWritesOk n rest
  | _ :: rest => FailedWritesOk n rest

/-- The reads and writes `ios` after the identification write are none when that
write failed, and a failed write among them is the last of them. -/
def IosStopAtFailedWrite (n : Nat) (ios : Nat → Device → List Call) : Prop :=
  ∀ i d tail,
    (d.idnWriteSt < VI_SUCCESS → ios i d = []) ∧
    (ClosesThenContinues n (Handle.session i) (Call.close (Handle.session i) :: tail) →
      FailedWritesOk n tail →
      FailedWritesOk n (ios i d ++ Call.close (Handle.session i) :: tail))

/-- The number a reply states by its own bytes, for a reply that is a plain decimal
number ended inside the reply: white space, an optional sign, digits with an
optional point (at least one digit), and then a byte of the reply that is none
of `e`, `E`, `d`, `D`, `x`, `X` (the letters a C library may read as the start of
an exponent or as a hexadecimal prefix).  The result is `none` for every other
reply, among them those with an exponent or a hexadecimal prefix, `inf`, `nan`,
and numbers that run to the last byte of the reply.  A reply holds at most 100
bytes, so the number is within the range of a `double`. -/
def plainDecimal (reply : List CChar) : Option Decimal :=
  let sg := scanSign (reply.dropWhile isspace)
  let ip := scanDigits sg.2 0 0
  let fp :=
    match ip.2.2 with
    | 46 :: r => scanDigits r ip.1 0
    | _ => (ip.1, 0, ip.2.2)
  if ip.2.1 + fp.2.1 = 0 then none
  else
    match fp.2.2 with
    | [] => none
    | t :: _ =>
      if t = 101 ∨ t = 69 ∨ t = 100 ∨ t = 68 ∨ t = 120 ∨ t = 88 then none
      else some ⟨sg.1, fp.1, -(fp.2.1 : Int)⟩

/-! ## C strings -/

theorem takeWhile_append_stop (p : CChar → Bool) (l r : List CChar) (a : CChar)
    (hl : ∀ x ∈ l, p x = true) (ha : p a = false) :
    (l ++ a :: r).takeWhile p = l := by
  induction l with
  | nil => simp [List.takeWhile, ha]
  | cons x xs ih =>
    have hx : p x = true := hl x (List.mem_cons_self _ _)
    have hxs : ∀ y ∈ xs, p y = true := fun y hy => hl y (List.mem_cons_of_mem _ hy)
    simp [List.takeWhile, hx, ih hxs]

theorem cstr_all_ne (s : List CChar) : ∀ x ∈ cstr s, nonNul x = true := by
  intro x hx
  exact List.mem_takeWhile_imp hx

theorem cstr_append_nul (l r : List CChar) (hl : ∀ x ∈ l, nonNul x = true) :
    cstr (l ++ 0 :: r) = l := by
  unfold cstr
  exact takeWhile_append_stop _ l r 0 hl (by decide)

theorem strcpy_eq (dst src : List CChar) :
    strcpy dst src = cstr src ++ 0 :: dst.drop (strlen src + 1) := by
  simp [strcpy, poke, strlen]

theorem cstr_strcpy (dst src : List CChar) : cstr (strcpy dst src) = cstr src := by
  rw [strcpy_eq]
  exact cstr_append_nul _ _ (cstr_all_ne src)

theorem strlen_strcpy (dst src : List CChar) : strlen (strcpy dst src) = strlen src := by
  simp [strlen, cstr_strcpy]

theorem take_strlen (s : List CChar) : s.take (strlen s) = cstr s := by
  unfold strlen cstr
  induction s with
  | nil => simp
  | cons x xs ih =>
    by_cases hx : nonNul x = true
    · simp [List.takeWhile, hx, ih]
    · simp [List.takeWhile, hx]

theorem strcat_strcpy (dst a b : List CChar) :
    strcat (strcpy dst a) b
      = cstr a ++ (cstr b ++ 0 :: (strcpy dst a).drop (strlen a + (strlen b + 1))) := by
  have h1 : (strcpy dst a).take (strlen a) = cstr a := by
    have := take_strlen (strcpy dst a)
    rwa [strlen_strcpy, cstr_strcpy] at this
  simp [strcat, poke, strlen_strcpy, h1]
  simp [strlen]

theorem cstr_strcat_strcpy (dst a b : List CChar) :
    cstr (strcat (strcpy dst a) b) = cstr a ++ cstr b := by
  rw [strcat_strcpy, ← List.append_assoc]
  apply cstr_append_nul
  intro x hx
  rcases List.mem_append.1 hx with h | h
  · exact cstr_all_ne a x h
  · exact cstr_all_ne b x h

/-! ## The log of each operation is a function of the script -/

@[simp] theorem viFindNext_trace (st : State) :
    (viFindNext st).trace = st.trace ++ [Call.findNext] := rfl
@[simp] theorem viFindNext_instr (st : State) : (viFindNext st).instr = st.instr := rfl
@[simp] theorem viFindNext_stringinput (st : State) :
    (viFindNext st).stringinput = st.stringinput := rfl
@[simp] theorem viFindNext_buffer (st : State) : (viFindNext st).buffer = st.buffer := rfl
@[simp] theorem viFindNext_resultString (st : State) :
    (viFindNext st).resultString = st.resultString := rfl
@[simp] theorem viFindNext_result (st : State) : (viFindNext st).result = st.result := rfl
@[simp] theorem viFindNext_cmdTop (st : State) : (viFindNext st).cmdTop = st.cmdTop := rfl

@[simp] theorem viOpen_trace (i : Nat) (s : Int) (st : State) :
    (viOpen i s st).trace = st.trace ++ [Call.open i s] := rfl
@[simp] theorem viOpen_instr (i : Nat) (s : Int) (st : State) :
    (viOpen i s st).instr = if s < VI_SUCCESS then Handle.stale else Handle.session i := rfl
@[simp] theorem viOpen_stringinput (i : Nat) (s : Int) (st : State) :
    (viOpen i s st).stringinput = st.stringinput := rfl
@[simp] theorem viOpen_buffer (i : Nat) (s : Int) (st : State) :
    (viOpen i s st).buffer = st.buffer := rfl
@[simp] theorem viOpen_resultString (i : Nat) (s : Int) (st : State) :
    (viOpen i s st).resultString = st.resultString := rfl
@[simp] theorem viOpen_result (i : Nat) (s : Int) (st : State) :
    (viOpen i s st).result = st.result := rfl
@[simp] theorem viOpen_cmdTop (i : Nat) (s : Int) (st : State) :
    (viOpen i s st).cmdTop = st.cmdTop := rfl

@[simp] theorem viSetAttribute_trace (a : Attr) (v : Nat) (st : State) :
    (viSetAttribute a v st).trace = st.trace ++ [Call.setAttribute st.instr a v] := rfl
@[simp] theorem viSetAttribute_instr (a : Attr) (v : Nat) (st : State) :
    (viSetAttribute a v st).instr = st.instr := rfl
@[simp] theorem viSetAttribute_stringinput (a : Attr) (v : Nat) (st : State) :
    (viSetAttribute a v st).stringinput = st.stringinput := rfl
@[simp] theorem viSetAttribute_buffer (a : Attr) (v : Nat) (st : State) :
    (viSetAttribute a v st).buffer = st.buffer := rfl
@[simp] theorem viSetAttribute_resultString (a : Attr) (v : Nat) (st : State) :
    (viSetAttribute a v st).resultString = st.resultString := rfl
@[simp] theorem viSetAttribute_result (a : Attr) (v : Nat) (st : State) :
    (viSetAttribute a v st).result = st.result := rfl
@[simp] theorem viSetAttribute_cmdTop (a : Attr) (v : Nat) (st : State) :
    (viSetAttribute a v st).cmdTop = st.cmdTop := rfl

@[simp] theorem viWrite_trace (s : Int) (st : State) :
    (viWrite s st).trace = st.trace ++ [Call.write st.instr (cstr st.stringinput) s] := by
  simp [viWrite, State.log, take_strlen]
@[simp] theorem viWrite_instr (s : Int) (st : State) : (viWrite s st).instr = st.instr := rfl
@[simp] theorem viWrite_stringinput (s : Int) (st : State) :
    (viWrite s st).stringinput = st.stringinput := rfl
@[simp] theorem viWrite_buffer (s : Int) (st : State) : (viWrite s st).buffer = st.buffer := rfl
@[simp] theorem viWrite_resultString (s : Int) (st : State) :
    (viWrite s st).resultString = st.resultString := rfl
@[simp] theorem viWrite_result (s : Int) (st : State) : (viWrite s st).result = st.result := rfl
@[simp] theorem viWrite_cmdTop (s : Int) (st : State) : (viWrite s st).cmdTop = st.cmdTop := rfl

@[simp] theorem viRead_trace (r : ReadReply) (st : State) :
    (viRead r st).trace = st.trace ++ [Call.read st.instr 100 r.status] := rfl
@[simp] theorem viRead_instr (r : ReadReply) (st : State) : (viRead r st).instr = st.instr := rfl
@[simp] theorem viRead_stringinput (r : ReadReply) (st : State) :
    (viRead r st).stringinput = st.stringinput := rfl
@[simp] theorem viRead_buffer (r : ReadReply) (st : State) :
    (viRead r st).buffer = poke st.buffer 0 (r.data.take 100) := rfl
@[simp] theorem viRead_retCount (r : ReadReply) (st : State) :
    (viRead r st).retCount = (r.data.take 100).length := rfl
@[simp] theorem viRead_resultString (r : ReadReply) (st : State) :
    (viRead r st).resultString = st.resultString := rfl
@[simp] theorem viRead_result (r : ReadReply) (st : State) : (viRead r st).result = st.result := rfl
@[simp] theorem viRead_cmdTop (r : ReadReply) (st : State) : (viRead r st).cmdTop = st.cmdTop := rfl

@[simp] theorem viClose_trace (st : State) :
    (viClose st).trace = st.trace ++ [Call.close st.instr] := rfl
@[simp] theorem viClose_instr (st : State) : (viClose st).instr = st.instr := rfl
@[simp] theorem viClose_buffer (st : State) : (viClose st).buffer = st.buffer := rfl
@[simp] theorem viClose_resultString (st : State) :
    (viClose st).resultString = st.resultString := rfl
@[simp] theorem viClose_result (st : State) : (viClose st).result = st.result := rfl
@[simp] theorem viClose_cmdTop (st : State) : (viClose st).cmdTop = st.cmdTop := rfl

@[simp] theorem viCloseRM_trace (st : State) :
    (viCloseRM st).trace = st.trace ++ [Call.closeRM] := rfl
@[simp] theorem viCloseRM_buffer (st : State) : (viCloseRM st).buffer = st.buffer := rfl
@[simp] theorem viCloseRM_resultString (st : State) :
    (viCloseRM st).resultString = st.resultString := rfl
@[simp] theorem viCloseRM_result (st : State) : (viCloseRM st).result = st.result := rfl
@[simp] theorem viCloseRM_cmdTop (st : State) : (viCloseRM st).cmdTop = st.cmdTop := rfl

@[simp] theorem viOpenDefaultRM_trace (s : Int) (st : State) :
    (viOpenDefaultRM s st).trace = st.trace ++ [Call.openDefaultRM s] := rfl
@[simp] theorem viOpenDefaultRM_instr (s : Int) (st : State) :
    (viOpenDefaultRM s st).instr = st.instr := rfl
@[simp] theorem viOpenDefaultRM_stringinput (s : Int) (st : State) :
    (viOpenDefaultRM s st).stringinput = st.stringinput := rfl
@[simp] theorem viOpenDefaultRM_buffer (s : Int) (st : State) :
    (viOpenDefaultRM s st).buffer = st.buffer := rfl
@[simp] theorem viOpenDefaultRM_resultString (s : Int) (st : State) :
    (viOpenDefaultRM s st).resultString = st.resultString := rfl
@[simp] theorem viOpenDefaultRM_result (s : Int) (st : State) :
    (viOpenDefaultRM s st).result = st.result := rfl
@[simp] theorem viOpenDefaultRM_cmdTop (s : Int) (st : State) :
    (viOpenDefaultRM s st).cmdTop = st.cmdTop := rfl

@[simp] theorem viFindRsrc_trace (s : Int) (st : State) :
    (viFindRsrc s st).trace = st.trace ++ [Call.findRsrc s] := rfl
@[simp] theorem viFindRsrc_instr (s : Int) (st : State) : (viFindRsrc s st).instr = st.instr := rfl
@[simp] theorem viFindRsrc_stringinput (s : Int) (st : State) :
    (viFindRsrc s st).stringinput = st.stringinput := rfl
@[simp] theorem viFindRsrc_buffer (s : Int) (st : State) :
    (viFindRsrc s st).buffer = st.buffer := rfl
@[simp] theorem viFindRsrc_resultString (s : Int) (st : State) :
    (viFindRsrc s st).resultString = st.resultString := rfl
@[simp] theorem viFindRsrc_result (s : Int) (st : State) : (viFindRsrc s st).result = st.result := rfl
@[simp] theorem viFindRsrc_cmdTop (s : Int) (st : State) : (viFindRsrc s st).cmdTop = st.cmdTop := rfl

@[simp] theorem enter_trace (st : State) : st.enter.trace = [] := rfl
@[simp] theorem enter_instr (st : State) : st.enter.instr = Handle.stale := rfl
@[simp] theorem enter_stringinput (st : State) : st.enter.stringinput = st.stringinput := rfl
@[simp] theorem enter_buffer (st : State) : st.enter.buffer = st.buffer := rfl
@[simp] theorem enter_resultString (st : State) : st.enter.resultString = st.resultString := rfl
@[simp] theorem enter_result (st : State) : st.enter.result = st.result := rfl
@[simp] theorem enter_cmdTop (st : State) : st.enter.cmdTop = 0 := rfl

@[simp] theorem strcpyCmd_trace (src : List CChar) (st : State) :
    (strcpyCmd src st).trace = st.trace := rfl
@[simp] theorem strcpyCmd_instr (src : List CChar) (st : State) :
    (strcpyCmd src st).instr = st.instr := rfl
@[simp] theorem strcpyCmd_stringinput (src : List CChar) (st : State) :
    (strcpyCmd src st).stringinput = strcpy st.stringinput src := rfl
@[simp] theorem strcpyCmd_buffer (src : List CChar) (st : State) :
    (strcpyCmd src st).buffer = st.buffer := rfl
@[simp] theorem strcpyCmd_retCount (src : List CChar) (st : State) :
    (strcpyCmd src st).retCount = st.retCount := rfl
@[simp] theorem strcpyCmd_resultString (src : List CChar) (st : State) :
    (strcpyCmd src st).resultString = st.resultString := rfl
@[simp] theorem strcpyCmd_result (src : List CChar) (st : State) :
    (strcpyCmd src st).result = st.result := rfl
@[simp] theorem strcpyCmd_cmdTop (src : List CChar) (st : State) :
    (strcpyCmd src st).cmdTop = max st.cmdTop (strlen src + 1) := rfl

@[simp] theorem strcatCmd_trace (src : List CChar) (st : State) :
    (strcatCmd src st).trace = st.trace := rfl
@[simp] theorem strcatCmd_instr (src : List CChar) (st : State) :
    (strcatCmd src st).instr = st.instr := rfl
@[simp] theorem strcatCmd_stringinput (src : List CChar) (st : State) :
    (strcatCmd src st).stringinput = strcat st.stringinput src := rfl
@[simp] theorem strcatCmd_buffer (src : List CChar) (st : State) :
    (strcatCmd src st).buffer = st.buffer := rfl
@[simp] theorem strcatCmd_retCount (src : List CChar) (st : State) :
    (strcatCmd src st).retCount = st.retCount := rfl
@[simp] theorem strcatCmd_resultString (src : List CChar) (st : State) :
    (strcatCmd src st).resultString = st.resultString := rfl
@[simp] theorem strcatCmd_result (src : List CChar) (st : State) :
    (strcatCmd src st).result = st.result := rfl
@[simp] theorem strcatCmd_cmdTop (src : List CChar) (st : State) :
    (strcatCmd src st).cmdTop = max st.cmdTop (strlen st.stringinput + strlen src + 1) := rfl

@[simp] theorem storeReply_trace (st : State) : (storeReply st).trace = st.trace := rfl
@[simp] theorem storeReply_instr (st : State) : (storeReply st).instr = st.instr := rfl
@[simp] theorem storeReply_buffer (st : State) : (storeReply st).buffer = st.buffer := rfl
@[simp] theorem storeReply_cmdTop (st : State) : (storeReply st).cmdTop = st.cmdTop := rfl
@[simp] theorem storeReply_resultString (st : State) :
    (storeReply st).resultString = strncpy st.resultString st.buffer st.retCount := rfl
@[simp] theorem storeReply_result (st : State) :
    (storeReply st).result = (sscanf_lf (cstr st.buffer)).getD st.result := rfl

theorem cstr_IDN_QUERY : cstr IDN_QUERY = IDN_QUERY := by decide
theorem cstr_OUTP_ON : cstr OUTP_ON = OUTP_ON := by decide
theorem cstr_OUTP_OFF : cstr OUTP_OFF = OUTP_OFF := by decide
theorem cstr_NEWLINE : cstr NEWLINE = NEWLINE := by decide

theorem outputDevice_trace (state i : Nat) (d : Device) (st : State) :
    (outputDevice state i d st).trace = st.trace ++ devCalls (outputIos state) i d := by
  unfold outputDevice devCalls outputIos
  by_cases hi : i > 0 <;> by_cases ho : d.openSt < VI_SUCCESS <;>
    by_cases hw : d.idnWriteSt < VI_SUCCESS <;> by_cases hc : d.cmdWriteSt < VI_SUCCESS <;>
    by_cases hs : state = 0 <;>
    simp [hi, ho, hw, hc, hs, cstr_strcpy, cstr_IDN_QUERY, cstr_OUTP_ON, cstr_OUTP_OFF]

theorem writeDevice_trace (command : List CChar) (i : Nat) (d : Device) (st : State) :
    (writeDevice command i d st).trace = st.trace ++ devCalls (writeIos command) i d := by
  unfold writeDevice devCalls writeIos
  by_cases hi : i > 0 <;> by_cases ho : d.openSt < VI_SUCCESS <;>
    by_cases hw : d.idnWriteSt < VI_SUCCESS <;> by_cases hc : d.cmdWriteSt < VI_SUCCESS <;>
    simp [hi, ho, hw, hc, cstr_strcpy, cstr_IDN_QUERY]

theorem queryDevice_trace (command : List CChar) (i : Nat) (d : Device) (st : State) :
    (queryDevice command i d st).trace = st.trace ++ devCalls (queryIos command) i d := by
  unfold queryDevice devCalls queryIos
  by_cases hi : i > 0 <;> by_cases ho : d.openSt < VI_SUCCESS <;>
    by_cases hw : d.idnWriteSt < VI_SUCCESS <;> by_cases hc : d.cmdWriteSt < VI_SUCCESS <;>
    by_cases hr : d.cmdRead.status < VI_SUCCESS <;>
    simp [hi, ho, hw, hc, hr, cstr_strcpy, cstr_IDN_QUERY]

theorem usbLoop_trace (body : Nat → Device → State → State) (ios : Nat → Device → List Call)
    (hbody : ∀ i d st, (body i d st).trace = st.trace ++ devCalls ios i d)
    (ds : List Device) : ∀ (i : Nat) (st : State),
    (usbLoop body i ds st).trace = st.trace ++ loopCalls ios i ds := by
  induction ds with
  | nil => intro i st; simp [usbLoop, loopCalls]
  | cons d ds ih =>
    intro i st
    simp [usbLoop, loopCalls, ih, hbody]

theorem ItechDcPowerOutput_trace (state : Nat) (env : UsbEnv) (st0 : State) :
    (ItechDcPowerOutput state env st0).2.trace = usbCalls (outputIos state) env := by
  unfold ItechDcPowerOutput usbCalls
  by_cases hrm : env.rmSt < VI_SUCCESS <;> by_cases hf : env.findSt < VI_SUCCESS <;>
    simp [hrm, hf,
      usbLoop_trace _ _ (outputDevice_trace state)]

theorem ItechDcPowerWrite_trace (command : List CChar) (env : UsbEnv) (st0 : State) :
    (ItechDcPowerWrite command env st0).2.trace = usbCalls (writeIos command) env := by
  unfold ItechDcPowerWrite usbCalls
  by_cases hrm : env.rmSt < VI_SUCCESS <;> by_cases hf : env.findSt < VI_SUCCESS <;>
    simp [hrm, hf,
      usbLoop_trace _ _ (writeDevice_trace command)]

theorem ItechDcPowerQuery_trace (command : List CChar) (env : UsbEnv) (st0 : State) :
    (ItechDcPowerQuery command env st0).2.trace = usbCalls (queryIos command) env := by
  unfold ItechDcPowerQuery usbCalls
  by_cases hrm : env.rmSt < VI_SUCCESS <;> by_cases hf : env.findSt < VI_SUCCESS <;>
    simp [hrm, hf,
      usbLoop_trace _ _ (queryDevice_trace command)]

theorem outputIos_onSession (state : Nat) : IosOnSession (outputIos state) := by
  intro i d c hc
  unfold outputIos at hc
  split at hc
  · simp at hc
  · simp at hc
    rcases hc with h | h
    · exact Or.inr ⟨_, _, h⟩
    · exact Or.inl ⟨_, _, h⟩

theorem writeIos_onSession (command : List CChar) : IosOnSession (writeIos command) := by
  intro i d c hc
  unfold writeIos at hc
  split at hc
  · simp at hc
  · simp at hc
    rcases hc with h | h
    · exact Or.inr ⟨_, _, h⟩
    · exact Or.inl ⟨_, _, h⟩

theorem queryIos_onSession (command : List CChar) : IosOnSession (queryIos command) := by
  intro i d c hc
  unfold queryIos at hc
  split at hc
  · simp at hc
  · simp at hc
    rcases hc with h | h | ⟨_, h⟩
    · exact Or.inr ⟨_, _, h⟩
    · exact Or.inl ⟨_, _, h⟩
    · exact Or.inr ⟨_, _, h⟩

/-! ## Session handles in the log of a sweep -/

theorem devCalls_handle (ios : Nat → Device → List Call) (hios : IosOnSession ios)
    (i : Nat) (d : Device) (c : Call) (hc : c ∈ devCalls ios i d) (h : Handle)
    (hh : c.handle? = some h) : h = Handle.session i ∧ ¬ d.openSt < VI_SUCCESS := by
  unfold devCalls at hc
  rcases List.mem_append.1 hc with h1 | h1
  · split at h1
    · simp at h1; subst h1; simp [Call.handle?] at hh
    · simp at h1
  · split at h1
    · simp at h1; subst h1; simp [Call.handle?] at hh
    · rename_i hopen
      simp only [List.mem_append, List.mem_cons, List.mem_singleton, List.not_mem_nil,
        or_false] at h1
      rcases h1 with (((h1 | h1) | h1) | h1)
      · subst h1; simp [Call.handle?] at hh
      · subst h1; simp [Call.handle?] at hh; exact ⟨hh.symm, hopen⟩
      · rcases hios i d c h1 with ⟨b, s, rfl⟩ | ⟨n, s, rfl⟩
        · simp [Call.handle?] at hh; exact ⟨hh.symm, hopen⟩
        · simp [Call.handle?] at hh; exact ⟨hh.symm, hopen⟩
      · subst h1; simp [Call.handle?] at hh; exact ⟨hh.symm, hopen⟩

theorem loopCalls_handle (ios : Nat → Device → List Call) (hios : IosOnSession ios)
    (ds : List Device) : ∀ (i : Nat) (c : Call), c ∈ loopCalls ios i ds → ∀ h : Handle,
    c.handle? = some h →
    ∃ n d, ds[n]? = some d ∧ h = Handle.session (i + n) ∧ ¬ d.openSt < VI_SUCCESS := by
  induction ds with
  | nil => intro i c hc; simp [loopCalls] at hc
  | cons d ds ih =>
    intro i c hc h hh
    simp only [loopCalls, List.mem_append] at hc
    rcases hc with hc | hc
    · obtain ⟨h1, h2⟩ := devCalls_handle ios hios i d c hc h hh
      exact ⟨0, d, by simp, by simpa using h1, h2⟩
    · obtain ⟨n, d1, hn, h1, h2⟩ := ih (i + 1) c hc h hh
      refine ⟨n + 1, d1, by simpa using hn, ?_, h2⟩
      rw [h1]; congr 1; omega

theorem usbCalls_handle (ios : Nat → Device → List Call) (hios : IosOnSession ios)
    (env : UsbEnv) (c : Call) (hc : c ∈ usbCalls ios env) (h : Handle)
    (hh : c.handle? = some h) :
    ∃ n d, env.devs[n]? = some d ∧ h = Handle.session n ∧ ¬ d.openSt < VI_SUCCESS := by
  unfold usbCalls at hc
  split at hc
  · simp at hc; subst hc; simp [Call.handle?] at hh
  · split at hc
    · simp at hc
      rcases hc with rfl | rfl | rfl <;> simp [Call.handle?] at hh
    · simp only [List.mem_append, List.mem_cons, List.mem_singleton, List.not_mem_nil,
        or_false] at hc
      rcases hc with ((hc | hc) | hc) | hc
      · subst hc; simp [Call.handle?] at hh
      · subst hc; simp [Call.handle?] at hh
      · obtain ⟨n, d, hn, h1, h2⟩ := loopCalls_handle ios hios env.devs 0 c hc h hh
        exact ⟨n, d, hn, by simpa using h1, h2⟩
      · subst hc; simp [Call.handle?] at hh

/-! ## Identification probes in the log of a sweep -/

theorem probes_skip (l rest : List Call)
    (hl : ∀ c ∈ l, ∀ i s, c ≠ Call.open i s) : probes (l ++ rest) = probes rest := by
  induction l with
  | nil => simp
  | cons c l ih =>
    have hc := hl c (List.mem_cons_self _ _)
    have hl1 : ∀ c ∈ l, ∀ i s, c ≠ Call.open i s :=
      fun c1 h1 => hl c1 (List.mem_cons_of_mem _ h1)
    rw [List.cons_append]
    cases c with
    | «open» i s => exact absurd rfl (hc i s)
    | _ => simp [probes, ih hl1]

theorem probes_open_next (i : Nat) (s : Int) (c : Call) (rest : List Call)
    (hc : ∀ h b w, c ≠ Call.write h b w) :
    probes (Call.open i s :: c :: rest) = probes (c :: rest) := by
  cases c with
  | write h b w => exact absurd rfl (hc h b w)
  | _ => simp [probes]

theorem loopCalls_succ_head (ios : Nat → Device → List Call) (i : Nat) (ds : List Device) :
    ∃ c r, loopCalls ios (i + 1) ds ++ [Call.closeRM] = c :: r ∧ ∀ h b w, c ≠ Call.write h b w := by
  cases ds with
  | nil => exact ⟨Call.closeRM, [], by simp [loopCalls], by intro h b w; simp⟩
  | cons d ds =>
    refine ⟨Call.findNext, (if d.openSt < VI_SUCCESS then [Call.open (i + 1) d.openSt]
      else [Call.open (i + 1) d.openSt,
            Call.write (Handle.session (i + 1)) IDN_QUERY d.idnWriteSt] ++
        ios (i + 1) d ++ [Call.close (Handle.session (i + 1))]) ++
      (loopCalls ios (i + 1 + 1) ds ++ [Call.closeRM]), ?_, by intro h b w; simp⟩
    simp [loopCalls, devCalls]

theorem probes_loopCalls (ios : Nat → Device → List Call) (hios : IosOnSession ios) (k : Nat)
    (ds : List Device) : ∀ (i : Nat),
    (∀ n d, ds[n]? = some d → (d.openSt < VI_SUCCESS ↔ i + n = k)) →
    probes (loopCalls ios i ds ++ [Call.closeRM])
      = (List.range' i ds.length).filter (fun j => j ≠ k) := by
  induction ds with
  | nil => intro i _; simp [loopCalls, probes]
  | cons d ds ih =>
    intro i hds
    have hd : d.openSt < VI_SUCCESS ↔ i = k := by simpa using hds 0 d (by simp)
    have hrest : ∀ n d1, ds[n]? = some d1 → (d1.openSt < VI_SUCCESS ↔ i + 1 + n = k) := by
      intro n d1 hn
      have := hds (n + 1) d1 (by simpa using hn)
      rw [this]; omega
    have ih1 := ih (i + 1) hrest
    have hfn : ∀ X : List Call,
        probes ((if i > 0 then [Call.findNext] else []) ++ X) = probes X := by
      intro X
      by_cases hi : i > 0 <;> simp [hi, probes]
    simp only [loopCalls, devCalls, List.append_assoc, hfn]
    by_cases ho : d.openSt < VI_SUCCESS
    · have hik : i = k := hd.1 ho
      obtain ⟨c, r, hcr, hc⟩ := loopCalls_succ_head ios i ds
      simp only [ho, if_true, List.singleton_append]
      rw [hcr, probes_open_next i _ c r hc, ← hcr, ih1]
      simp [List.range', hik]
    · have hik : i ≠ k := fun h => ho (hd.2 h)
      have hskip : probes (ios i d ++ [Call.close (Handle.session i)] ++
          (loopCalls ios (i + 1) ds ++ [Call.closeRM]))
          = probes (loopCalls ios (i + 1) ds ++ [Call.closeRM]) := by
        apply probes_skip
        intro c hc j s
        rcases List.mem_append.1 hc with h1 | h1
        · rcases hios i d c h1 with ⟨b, w, rfl⟩ | ⟨n, w, rfl⟩ <;> simp
        · simp at h1; subst h1; simp
      simp only [ho, if_false, List.cons_append, List.nil_append, probes, true_and, if_true]
      rw [hskip, ih1]
      simp [List.range', hik]

theorem probes_usbCalls (ios : Nat → Device → List Call) (hios : IosOnSession ios)
    (env : UsbEnv) (k : Nat) (dk : Device)
    (hrm : ¬ env.rmSt < VI_SUCCESS) (hfind : ¬ env.findSt < VI_SUCCESS)
    (hk : env.devs[k]? = some dk) (hfail : dk.openSt < VI_SUCCESS)
    (hothers : ∀ j d, j ≠ k → env.devs[j]? = some d → ¬ d.openSt < VI_SUCCESS) :
    probes (usbCalls ios env) = (List.range env.devs.length).filter (fun j => j ≠ k) := by
  have hds : ∀ n d, env.devs[n]? = some d → (d.openSt < VI_SUCCESS ↔ 0 + n = k) := by
    intro n d hn
    constructor
    · intro hlt
      by_contra hne
      exact hothers n d (by omega) hn hlt
    · intro hnk
      have : n = k := by omega
      subst this
      rw [hk] at hn
      cases hn
      exact hfail
  have := probes_loopCalls ios hios k env.devs 0 hds
  simp only [usbCalls, hrm, hfind, if_false, List.cons_append, List.nil_append, probes,
    List.append_assoc]
  rw [this, List.range_eq_range']

theorem usbCalls_getLast (ios : Nat → Device → List Call) (env : UsbEnv)
    (hrm : ¬ env.rmSt < VI_SUCCESS) : (usbCalls ios env).getLast? = some Call.closeRM := by
  unfold usbCalls
  by_cases hf : env.findSt < VI_SUCCESS
  · simp [hrm, hf]
  · simp only [hrm, hf, if_false]
    rw [List.getLast?_append]
    simp

/-! ## Returned status -/

theorem ItechDcPowerOutput_ret (state : Nat) (env : UsbEnv) (st0 : State) :
    (ItechDcPowerOutput state env st0).1 =
      if env.rmSt < VI_SUCCESS then Ret.exited
      else if env.findSt < VI_SUCCESS then Ret.returned env.findSt else Ret.returned 0 := by
  unfold ItechDcPowerOutput
  by_cases hrm : env.rmSt < VI_SUCCESS <;> by_cases hf : env.findSt < VI_SUCCESS <;>
    simp [hrm, hf]

theorem ItechDcPowerWrite_ret (command : List CChar) (env : UsbEnv) (st0 : State) :
    (ItechDcPowerWrite command env st0).1 =
      if env.rmSt < VI_SUCCESS then Ret.exited
      else if env.findSt < VI_SUCCESS then Ret.returned env.findSt else Ret.returned 0 := by
  unfold ItechDcPowerWrite
  by_cases hrm : env.rmSt < VI_SUCCESS <;> by_cases hf : env.findSt < VI_SUCCESS <;>
    simp [hrm, hf]

theorem ItechDcPowerQuery_ret (command : List CChar) (env : UsbEnv) (st0 : State) :
    (ItechDcPowerQuery command env st0).1 =
      if env.rmSt < VI_SUCCESS then Ret.exited
      else if env.findSt < VI_SUCCESS then Ret.returned env.findSt else Ret.returned 0 := by
  unfold ItechDcPowerQuery
  by_cases hrm : env.rmSt < VI_SUCCESS <;> by_cases hf : env.findSt < VI_SUCCESS <;>
    simp [hrm, hf]

theorem loopCalls_continues (ios : Nat → Device → List Call) (i n : Nat) (ds : List Device)
    (hn : i + 1 + ds.length = n) :
    (i + 1 = n ∧ loopCalls ios (i + 1) ds ++ [Call.closeRM] = [Call.closeRM]) ∨
    (i + 1 < n ∧ ∃ s r,
      loopCalls ios (i + 1) ds ++ [Call.closeRM] = Call.findNext :: Call.open (i + 1) s :: r) := by
  cases ds with
  | nil => exact Or.inl ⟨by simpa using hn, by simp [loopCalls]⟩
  | cons d ds =>
    refine Or.inr ⟨by simp at hn; omega, d.openSt, ?_⟩
    by_cases ho : d.openSt < VI_SUCCESS
    · exact ⟨loopCalls ios (i + 1 + 1) ds ++ [Call.closeRM], by simp [loopCalls, devCalls, ho]⟩
    · exact ⟨[Call.write (Handle.session (i + 1)) IDN_QUERY d.idnWriteSt] ++ ios (i + 1) d ++
        [Call.close (Handle.session (i + 1))] ++
        (loopCalls ios (i + 1 + 1) ds ++ [Call.closeRM]), by simp [loopCalls, devCalls, ho]⟩

theorem failedOpensOk_sound (n : Nat) (pre : List Call) : ∀ (t : List Call),
    FailedOpensOk n t → ∀ (post : List Call) (i : Nat) (s : Int),
    t = pre ++ Call.open i s :: post → s < VI_SUCCESS → NextDeviceOrEnd n i post := by
  induction pre with
  | nil =>
    intro t hm post i s ht hs
    subst ht
    exact hm.1 hs
  | cons a pre ih =>
    intro t hm post i s ht hs
    subst ht
    have hm1 : FailedOpensOk n (pre ++ Call.open i s :: post) := by
      cases a with
      | «open» j s1 => exact hm.2
      | _ => exact hm
    exact ih _ hm1 post i s rfl hs

theorem failedOpensOk_skip (n : Nat) (l rest : List Call)
    (hl : ∀ c ∈ l, ∀ i s, c ≠ Call.open i s) (hrest : FailedOpensOk n rest) :
    FailedOpensOk n (l ++ rest) := by
  induction l with
  | nil => simpa using hrest
  | cons c l ih =>
    have hc := hl c (List.mem_cons_self _ _)
    have ih1 := ih (fun c1 h1 => hl c1 (List.mem_cons_of_mem _ h1))
    cases c with
    | «open» i s => exact absurd rfl (hc i s)
    | _ => exact ih1

theorem failedOpensOk_devCalls (n : Nat) (ios : Nat → Device → List Call)
    (hios : IosOnSession ios) (i : Nat) (d : Device) (rest : List Call)
    (hnext : NextDeviceOrEnd n i rest) (hrest : FailedOpensOk n rest) :
    FailedOpensOk n (devCalls ios i d ++ rest) := by
  have hskip : FailedOpensOk n
      ((Call.write (Handle.session i) IDN_QUERY d.idnWriteSt :: ios i d ++
        [Call.close (Handle.session i)]) ++ rest) := by
    apply failedOpensOk_skip n _ rest _ hrest
    intro c hc j s
    simp only [List.cons_append, List.mem_cons, List.mem_append, List.mem_singleton] at hc
    rcases hc with h1 | h1 | h1
    · subst h1; simp
    · rcases hios i d c h1 with ⟨b, w, rfl⟩ | ⟨m, w, rfl⟩ <;> simp
    · simp at h1; subst h1; simp
  unfold devCalls
  by_cases hi : i > 0 <;> by_cases ho : d.openSt < VI_SUCCESS
  · simpa [hi, ho, FailedOpensOk] using ⟨hnext, hrest⟩
  · simpa [hi, ho, FailedOpensOk] using hskip
  · simpa [hi, ho, FailedOpensOk] using ⟨hnext, hrest⟩
  · simpa [hi, ho, FailedOpensOk] using hskip

theorem failedOpensOk_loopCalls (n : Nat) (ios : Nat → Device → List Call)
    (hios : IosOnSession ios) (ds : List Device) :
    ∀ (i : Nat), i + ds.length = n →
    FailedOpensOk n (loopCalls ios i ds ++ [Call.closeRM]) := by
  induction ds with
  | nil => intro i _; simp [loopCalls, FailedOpensOk]
  | cons d ds ih =>
    intro i hn
    have hn1 : i + 1 + ds.length = n := by simp at hn; omega
    simp only [loopCalls, List.append_assoc]
    exact failedOpensOk_devCalls n ios hios i d _ (loopCalls_continues ios i n ds hn1)
      (ih (i + 1) hn1)

theorem failedOpensOk_usbCalls (ios : Nat → Device → List Call) (hios : IosOnSession ios)
    (env : UsbEnv) : FailedOpensOk env.devs.length (usbCalls ios env) := by
  unfold usbCalls
  by_cases hrm : env.rmSt < VI_SUCCESS
  · simp [hrm, FailedOpensOk]
  · by_cases hf : env.findSt < VI_SUCCESS
    · simp [hrm, hf, FailedOpensOk]
    · simp only [hrm, hf, if_false, List.cons_append, List.nil_append, FailedOpensOk,
        List.append_assoc]
      exact failedOpensOk_loopCalls _ ios hios env.devs 0 (by simp)

theorem open_mem_devCalls_self (ios : Nat → Device → List Call) (i : Nat) (d : Device) :
    Call.open i d.openSt ∈ devCalls ios i d := by
  unfold devCalls
  by_cases hi : i > 0 <;> by_cases ho : d.openSt < VI_SUCCESS <;> simp [hi, ho]

theorem open_mem_loopCalls_of_getElem (ios : Nat → Device → List Call) (ds : List Device) :
    ∀ (i m : Nat) (d : Device), ds[m]? = some d →
    Call.open (i + m) d.openSt ∈ loopCalls ios i ds := by
  induction ds with
  | nil => intro i m d hm; simp at hm
  | cons d0 ds ih =>
    intro i m d hm
    cases m with
    | zero =>
      simp at hm
      subst hm
      simp only [loopCalls, List.mem_append, Nat.add_zero]
      exact Or.inl (open_mem_devCalls_self ios i d0)
    | succ m =>
      have hm1 : ds[m]? = some d := by simpa using hm
      have := ih (i + 1) m d hm1
      have e : i + 1 + m = i + (m + 1) := by omega
      rw [e] at this
      simp only [loopCalls, List.mem_append]
      exact Or.inr this

theorem open_mem_usbCalls_of_getElem (ios : Nat → Device → List Call) (env : UsbEnv)
    (hrm : ¬ env.rmSt < VI_SUCCESS) (hfind : ¬ env.findSt < VI_SUCCESS)
    (k : Nat) (d : Device) (hk : env.devs[k]? = some d) :
    Call.open k d.openSt ∈ usbCalls ios env := by
  have := open_mem_loopCalls_of_getElem ios env.devs 0 k d hk
  simp only [Nat.zero_add] at this
  simp [usbCalls, hrm, hfind, this]

theorem open_status_in_usbCalls (ios : Nat → Device → List Call) (hios : IosOnSession ios)
    (env : UsbEnv) (j : Nat) (s : Int) (hmem : Call.open j s ∈ usbCalls ios env) :
    ∃ d, env.devs[j]? = some d ∧ s = d.openSt := by
  unfold usbCalls at hmem
  split at hmem
  · simp at hmem
  · split at hmem
    · simp at hmem
    · simp only [List.mem_append, List.mem_cons, List.mem_singleton, List.not_mem_nil,
        or_false] at hmem
      rcases hmem with ((h1 | h1) | h1) | h1
      · simp at h1
      · simp at h1
      · have hloop : ∀ (ds : List Device) (i : Nat), Call.open j s ∈ loopCalls ios i ds →
            ∃ m d, ds[m]? = some d ∧ j = i + m ∧ s = d.openSt := by
          intro ds
          induction ds with
          | nil => intro i hm; simp [loopCalls] at hm
          | cons d ds ih =>
            intro i hm
            simp only [loopCalls, List.mem_append] at hm
            rcases hm with h2 | h2
            · have hdev : j = i ∧ s = d.openSt := by
                unfold devCalls at h2
                rcases List.mem_append.1 h2 with h3 | h3
                · split at h3 <;> simp at h3
                · split at h3
                  · simpa using h3
                  · simp only [List.mem_append, List.mem_cons, List.mem_singleton,
                      List.not_mem_nil, or_false] at h3
                    rcases h3 with (((h3 | h3) | h3) | h3)
                    · simpa using h3
                    · simp at h3
                    · rcases hios i d _ h3 with ⟨b, w, h4⟩ | ⟨m, w, h4⟩ <;> simp at h4
                    · simp at h3
              exact ⟨0, d, by simp, by simpa using hdev.1, hdev.2⟩
            · obtain ⟨m, d1, hm1, h3, h4⟩ := ih (i + 1) h2
              exact ⟨m + 1, d1, by simpa using hm1, by omega, h4⟩
        obtain ⟨m, d, hm, h2, h3⟩ := hloop env.devs 0 h1
        have hjm : j = m := by omega
        subst hjm
        exact ⟨d, hm, h3⟩
      · simp at h1

theorem skipsDevice_of_calls (ios : Nat → Device → List Call) (hios : IosOnSession ios)
    (env : UsbEnv) (k : Nat) (dk : Device) (r : Ret × State)
    (htrace : r.2.trace = usbCalls ios env) (hret : r.1 = Ret.returned 0)
    (hrm : ¬ env.rmSt < VI_SUCCESS) (hfind : ¬ env.findSt < VI_SUCCESS)
    (hk : env.devs[k]? = some dk) (hfail : dk.openSt < VI_SUCCESS)
    (hothers : ∀ j d, j ≠ k → env.devs[j]? = some d → ¬ d.openSt < VI_SUCCESS) :
    SkipsDevice k env.devs.length r := by
  refine ⟨?_, ?_, ?_, ?_, ?_, hret⟩
  · rw [htrace]
    exact ⟨dk.openSt, hfail, open_mem_usbCalls_of_getElem ios env hrm hfind k dk hk⟩
  · intro pre post s hsplit
    rw [htrace] at hsplit
    have hmem : Call.open k s ∈ usbCalls ios env := by
      rw [hsplit]; simp
    obtain ⟨d, hd, hs⟩ := open_status_in_usbCalls ios hios env k s hmem
    rw [hk] at hd
    cases hd
    exact failedOpensOk_sound _ pre _ (failedOpensOk_usbCalls ios hios env) post k s hsplit
      (hs ▸ hfail)
  · intro c hc h hh
    rw [htrace] at hc
    obtain ⟨m, d, hm, h1, h2⟩ := usbCalls_handle ios hios env c hc _ hh
    refine ⟨m, h1, ?_, ?_⟩
    · intro hmk
      subst hmk
      rw [hk] at hm
      cases hm
      exact h2 hfail
    · by_contra hge
      rw [List.getElem?_eq_none (not_lt.1 hge)] at hm
      cases hm
  · rw [htrace]
    exact probes_usbCalls ios hios env k dk hrm hfind hk hfail hothers
  · rw [htrace]
    exact usbCalls_getLast ios env hrm

/-! ## C1 -/

/-- C1: in each USB operation (`ItechDcPowerOutput`, `ItechDcPowerWrite`,
`ItechDcPowerQuery`), when the resource manager opens, enumeration succeeds,
the open of the device of loop index `k` (device `k + 1` of the log messages) fails
and the open of every other enumerated device succeeds, then the failed open of
device `k` is directly followed by the find-next and open of the next device, or
by the close of the resource manager when `k` is the last device, so that no
write, read or close is issued in the iteration of device `k`; every
set-attribute, write, read and close of the log is on the session of another
device; the identification probe is written to the other devices in enumeration
order; the last call is the close of the resource manager; and the operation
returns 0. -/
theorem usb_sweep_skips_unopened_device (state : Nat) (command : List CChar) (env : UsbEnv)
    (st0 : State) (k : Nat) (dk : Device)
    (hrm : VI_SUCCESS ≤ env.rmSt) (hfind : VI_SUCCESS ≤ env.findSt)
    (hk : env.devs[k]? = some dk) (hfail : dk.openSt < VI_SUCCESS)
    (hothers : ∀ j d, j ≠ k → env.devs[j]? = some d → VI_SUCCESS ≤ d.openSt) :
    SkipsDevice k env.devs.length (ItechDcPowerOutput state env st0) ∧
    SkipsDevice k env.devs.length (ItechDcPowerWrite command env st0) ∧
    SkipsDevice k env.devs.length (ItechDcPowerQuery command env st0) := by
  have hrm1 : ¬ env.rmSt < VI_SUCCESS := not_lt.2 hrm
  have hfind1 : ¬ env.findSt < VI_SUCCESS := not_lt.2 hfind
  have hoth1 : ∀ j d, j ≠ k → env.devs[j]? = some d → ¬ d.openSt < VI_SUCCESS :=
    fun j d hj hd => not_lt.2 (hothers j d hj hd)
  refine ⟨?_, ?_, ?_⟩
  · exact skipsDevice_of_calls _ (outputIos_onSession state) env k dk _
      (ItechDcPowerOutput_trace state env st0)
      (by rw [ItechDcPowerOutput_ret]; simp [hrm1, hfind1]) hrm1 hfind1 hk hfail hoth1
  · exact skipsDevice_of_calls _ (writeIos_onSession command) env k dk _
      (ItechDcPowerWrite_trace command env st0)
      (by rw [ItechDcPowerWrite_ret]; simp [hrm1, hfind1]) hrm1 hfind1 hk hfail hoth1
  · exact skipsDevice_of_calls _ (queryIos_onSession command) env k dk _
      (ItechDcPowerQuery_trace command env st0)
      (by rw [ItechDcPowerQuery_ret]; simp [hrm1, hfind1]) hrm1 hfind1 hk hfail hoth1

/-- Witness of C1: three devices, the second of which cannot be opened. -/
theorem usb_sweep_skips_unopened_device_witness :
    SkipsDevice 1 3 (ItechDcPowerOutput 1 exEnvSkip exState) ∧
    SkipsDevice 1 3 (ItechDcPowerWrite exCommand exEnvSkip exState) ∧
    SkipsDevice 1 3 (ItechDcPowerQuery exCommand exEnvSkip exState) :=
  usb_sweep_skips_unopened_device 1 exCommand exEnvSkip exState 1 exDeadDevice
    (by decide) (by decide) (by decide) (by decide)
    (by
      intro j d hj hd
      rcases j with _ | _ | _ | j
      · simp [exEnvSkip] at hd; subst hd; decide
      · exact absurd rfl hj
      · simp [exEnvSkip] at hd; subst hd; decide
      · simp [exEnvSkip] at hd)

/-! ## Bytes written on a session -/

theorem writtenBytes_append (h : Handle) (a b : List Call) :
    writtenBytes h (a ++ b) = writtenBytes h a ++ writtenBytes h b := by
  induction a with
  | nil => simp [writtenBytes]
  | cons c a ih =>
    cases c with
    | write h1 bytes s =>
      by_cases hh : h1 = h <;> simp [writtenBytes, hh, ih]
    | _ => simp [writtenBytes, ih]

theorem writtenBytes_of_no_handle (h : Handle) (l : List Call)
    (hl : ∀ c ∈ l, c.handle? ≠ some h) : writtenBytes h l = [] := by
  induction l with
  | nil => simp [writtenBytes]
  | cons c l ih =>
    have hc := hl c (List.mem_cons_self _ _)
    have hl1 : ∀ c ∈ l, c.handle? ≠ some h := fun c1 h1 => hl c1 (List.mem_cons_of_mem _ h1)
    cases c with
    | write h1 bytes s =>
      have hne : h1 ≠ h := by
        intro heq
        exact hc (by simp [Call.handle?, heq])
      simp [writtenBytes, hne, ih hl1]
    | _ => simp [writtenBytes, ih hl1]

theorem writtenBytes_devCalls_other (ios : Nat → Device → List Call) (hios : IosOnSession ios)
    (i j : Nat) (d : Device) (hij : i ≠ j) :
    writtenBytes (Handle.session j) (devCalls ios i d) = [] := by
  apply writtenBytes_of_no_handle
  intro c hc hh
  have := (devCalls_handle ios hios i d c hc _ hh).1
  injection this with h1
  exact hij h1.symm

theorem writtenBytes_loopCalls_later (ios : Nat → Device → List Call) (hios : IosOnSession ios)
    (j : Nat) (ds : List Device) : ∀ (i : Nat), j < i →
    writtenBytes (Handle.session j) (loopCalls ios i ds) = [] := by
  induction ds with
  | nil => intro i _; simp [loopCalls, writtenBytes]
  | cons d ds ih =>
    intro i hji
    simp [loopCalls, writtenBytes_append, ih (i + 1) (by omega),
      writtenBytes_devCalls_other ios hios i j d (by omega)]

theorem writtenBytes_loopCalls (ios : Nat → Device → List Call) (hios : IosOnSession ios)
    (ds : List Device) : ∀ (i n : Nat) (d : Device), ds[n]? = some d →
    writtenBytes (Handle.session (i + n)) (loopCalls ios i ds)
      = writtenBytes (Handle.session (i + n)) (devCalls ios (i + n) d) := by
  induction ds with
  | nil => intro i n d hn; simp at hn
  | cons d0 ds ih =>
    intro i n d hn
    cases n with
    | zero =>
      simp at hn
      subst hn
      simp [loopCalls, writtenBytes_append,
        writtenBytes_loopCalls_later ios hios i ds (i + 1) (by omega)]
    | succ n =>
      have hn1 : ds[n]? = some d := by simpa using hn
      have := ih (i + 1) n d hn1
      have e : i + 1 + n = i + (n + 1) := by omega
      rw [e] at this
      simp [loopCalls, writtenBytes_append, this,
        writtenBytes_devCalls_other ios hios i (i + (n + 1)) d0 (by omega)]

theorem writtenBytes_usbCalls (ios : Nat → Device → List Call) (hios : IosOnSession ios)
    (env : UsbEnv) (hrm : ¬ env.rmSt < VI_SUCCESS) (hfind : ¬ env.findSt < VI_SUCCESS)
    (i : Nat) (d : Device) (hi : env.devs[i]? = some d) :
    writtenBytes (Handle.session i) (usbCalls ios env)
      = writtenBytes (Handle.session i) (devCalls ios i d) := by
  have := writtenBytes_loopCalls ios hios env.devs 0 i d hi
  simp only [Nat.zero_add] at this
  simp [usbCalls, hrm, hfind, writtenBytes_append, writtenBytes, this]

/-! ## C2 -/

/-- C2: for every list of enumerated USB devices and every value of `state`,
`ItechDcPowerOutput(state)` writes on the session of each device whose open and
identification write succeed the probe and then exactly the 7 bytes `"OUTP 1\n"`
when `state` is non-zero and `"OUTP 0\n"` when it is 0, and nothing else,
whatever the outcome of that device's identification read. -/
theorem output_sends_outp_to_each_probed_device (state : Nat) (env : UsbEnv) (st0 : State)
    (i : Nat) (d : Device)
    (hrm : VI_SUCCESS ≤ env.rmSt) (hfind : VI_SUCCESS ≤ env.findSt)
    (hi : env.devs[i]? = some d)
    (hopen : VI_SUCCESS ≤ d.openSt) (hidn : VI_SUCCESS ≤ d.idnWriteSt) :
    writtenBytes (Handle.session i) (ItechDcPowerOutput state env st0).2.trace
      = [IDN_QUERY, if state = 0 then OUTP_OFF else OUTP_ON] ∧
    OUTP_ON = [79, 85, 84, 80, 32, 49, 10] ∧ OUTP_OFF = [79, 85, 84, 80, 32, 48, 10] := by
  refine ⟨?_, rfl, rfl⟩
  rw [ItechDcPowerOutput_trace,
    writtenBytes_usbCalls _ (outputIos_onSession state) env (not_lt.2 hrm) (not_lt.2 hfind) i d hi]
  by_cases hi0 : i > 0 <;> by_cases hs : state = 0 <;>
    simp [devCalls, outputIos, not_lt.2 hopen, not_lt.2 hidn, writtenBytes, hi0, hs]

/-- Witness of C2: `state = 1` on two devices, the second of which fails its
identification read; both receive `"OUTP 1\n"`. -/
theorem output_sends_outp_to_each_probed_device_witness :
    writtenBytes (Handle.session 0) (ItechDcPowerOutput 1 exEnvOutput exState).2.trace
      = [IDN_QUERY, OUTP_ON] ∧
    writtenBytes (Handle.session 1) (ItechDcPowerOutput 1 exEnvOutput exState).2.trace
      = [IDN_QUERY, OUTP_ON] :=
  ⟨(output_sends_outp_to_each_probed_device 1 exEnvOutput exState 0 (exDevice [])
      (by decide) (by decide) rfl (by decide) (by decide)).1,
   (output_sends_outp_to_each_probed_device 1 exEnvOutput exState 1
      { exDevice [] with idnRead := ⟨-1073807339, []⟩ }
      (by decide) (by decide) rfl (by decide) (by decide)).1⟩

/-! ## The serial operations -/

@[simp] theorem configurePort_trace (st : State) :
    (configurePort st).trace = st.trace ++ portCalls st.instr := by
  simp [configurePort, portCalls]
@[simp] theorem configurePort_instr (st : State) : (configurePort st).instr = st.instr := by
  simp [configurePort]
@[simp] theorem configurePort_stringinput (st : State) :
    (configurePort st).stringinput = st.stringinput := by
  simp [configurePort]
@[simp] theorem configurePort_buffer (st : State) : (configurePort st).buffer = st.buffer := by
  simp [configurePort]
@[simp] theorem configurePort_resultString (st : State) :
    (configurePort st).resultString = st.resultString := by
  simp [configurePort]
@[simp] theorem configurePort_result (st : State) : (configurePort st).result = st.result := by
  simp [configurePort]
@[simp] theorem configurePort_cmdTop (st : State) : (configurePort st).cmdTop = st.cmdTop := by
  simp [configurePort]

@[simp] theorem serialClose_ret (st : State) : (serialClose st).1 = Ret.returned 0 := rfl
@[simp] theorem serialClose_trace (st : State) :
    (serialClose st).2.trace = st.trace ++ [Call.close st.instr, Call.closeRM] := by
  simp [serialClose]
@[simp] theorem serialClose_buffer (st : State) : (serialClose st).2.buffer = st.buffer := rfl
@[simp] theorem serialClose_resultString (st : State) :
    (serialClose st).2.resultString = st.resultString := rfl
@[simp] theorem serialClose_result (st : State) : (serialClose st).2.result = st.result := rfl
@[simp] theorem serialClose_cmdTop (st : State) : (serialClose st).2.cmdTop = st.cmdTop := rfl

theorem ItechDcPowerWriteSerial_trace (command : List CChar) (env : SerialEnv) (st0 : State) :
    (ItechDcPowerWriteSerial command env st0).2.trace = serialCalls false command env := by
  unfold ItechDcPowerWriteSerial serialCalls
  by_cases hrm : env.rmSt < VI_SUCCESS <;> by_cases ho : env.dev.openSt < VI_SUCCESS <;>
    by_cases hw : env.dev.idnWriteSt < VI_SUCCESS <;>
    by_cases hc : env.dev.cmdWriteSt < VI_SUCCESS <;>
    simp [hrm, ho, hw, hc, cstr_strcpy, cstr_strcat_strcpy, cstr_IDN_QUERY, cstr_NEWLINE]

theorem ItechDcPowerQuerySerial_trace (command : List CChar) (env : SerialEnv) (st0 : State) :
    (ItechDcPowerQuerySerial command env st0).2.trace = serialCalls true command env := by
  unfold ItechDcPowerQuerySerial serialCalls
  by_cases hrm : env.rmSt < VI_SUCCESS <;> by_cases ho : env.dev.openSt < VI_SUCCESS <;>
    by_cases hw : env.dev.idnWriteSt < VI_SUCCESS <;>
    by_cases hc : env.dev.cmdWriteSt < VI_SUCCESS <;>
    by_cases hr : env.dev.cmdRead.status < VI_SUCCESS <;>
    simp [hrm, ho, hw, hc, hr, cstr_strcpy, cstr_strcat_strcpy, cstr_IDN_QUERY, cstr_NEWLINE]

theorem ItechDcPowerWriteSerial_ret (command : List CChar) (env : SerialEnv) (st0 : State) :
    (ItechDcPowerWriteSerial command env st0).1 =
      if env.rmSt < VI_SUCCESS then Ret.exited else Ret.returned 0 := by
  unfold ItechDcPowerWriteSerial
  by_cases hrm : env.rmSt < VI_SUCCESS <;> by_cases ho : env.dev.openSt < VI_SUCCESS <;>
    by_cases hw : env.dev.idnWriteSt < VI_SUCCESS <;>
    by_cases hc : env.dev.cmdWriteSt < VI_SUCCESS <;>
    simp [hrm, ho, hw, hc]

theorem ItechDcPowerQuerySerial_ret (command : List CChar) (env : SerialEnv) (st0 : State) :
    (ItechDcPowerQuerySerial command env st0).1 =
      if env.rmSt < VI_SUCCESS then Ret.exited else Ret.returned 0 := by
  unfold ItechDcPowerQuerySerial
  by_cases hrm : env.rmSt < VI_SUCCESS <;> by_cases ho : env.dev.openSt < VI_SUCCESS <;>
    by_cases hw : env.dev.idnWriteSt < VI_SUCCESS <;>
    by_cases hc : env.dev.cmdWriteSt < VI_SUCCESS <;>
    simp [hrm, ho, hw, hc]

theorem writtenBytes_serialCalls (query : Bool) (command : List CChar) (env : SerialEnv)
    (hrm : ¬ env.rmSt < VI_SUCCESS) (hopen : ¬ env.dev.openSt < VI_SUCCESS)
    (hidn : ¬ env.dev.idnWriteSt < VI_SUCCESS) :
    writtenBytes (Handle.session 0) (serialCalls query command env)
      = [IDN_QUERY, cstr command ++ NEWLINE] := by
  unfold serialCalls
  by_cases hq : query = true <;> by_cases hc : env.dev.cmdWriteSt < VI_SUCCESS <;>
    simp [hrm, hopen, hidn, hq, hc, portCalls, writtenBytes]

theorem strlen_IDN_QUERY : strlen IDN_QUERY = 6 := by decide
theorem strlen_NEWLINE : strlen NEWLINE = 1 := by decide

theorem ItechDcPowerWriteSerial_cmdTop_le (command : List CChar) (env : SerialEnv)
    (st0 : State) :
    (ItechDcPowerWriteSerial command env st0).2.cmdTop ≤ max 7 (strlen command + 2) := by
  unfold ItechDcPowerWriteSerial
  by_cases hrm : env.rmSt < VI_SUCCESS <;> by_cases ho : env.dev.openSt < VI_SUCCESS <;>
    by_cases hw : env.dev.idnWriteSt < VI_SUCCESS <;>
    by_cases hc : env.dev.cmdWriteSt < VI_SUCCESS <;>
    simp [hrm, ho, hw, hc, strlen_strcpy, strlen_IDN_QUERY, strlen_NEWLINE] <;> omega

theorem ItechDcPowerQuerySerial_cmdTop_le (command : List CChar) (env : SerialEnv)
    (st0 : State) :
    (ItechDcPowerQuerySerial command env st0).2.cmdTop ≤ max 7 (strlen command + 2) := by
  unfold ItechDcPowerQuerySerial
  by_cases hrm : env.rmSt < VI_SUCCESS <;> by_cases ho : env.dev.openSt < VI_SUCCESS <;>
    by_cases hw : env.dev.idnWriteSt < VI_SUCCESS <;>
    by_cases hc : env.dev.cmdWriteSt < VI_SUCCESS <;>
    by_cases hr : env.dev.cmdRead.status < VI_SUCCESS <;>
    simp [hrm, ho, hw, hc, hr, strlen_strcpy, strlen_IDN_QUERY, strlen_NEWLINE] <;> omega

/-! ## C3 -/

/-- C3, counterexample: the command `"OUTP 1\n"` already includes a newline and
fits the command buffer, yet both serial operations transmit `"OUTP 1\n\n"` in the
command-write step, not the command unchanged. -/
theorem serial_newline_appended_to_terminated_command :
    10 ∈ cstr OUTP_ON ∧ strlen OUTP_ON + 2 ≤ 512 ∧
    writtenBytes (Handle.session 0)
        (ItechDcPowerWriteSerial OUTP_ON (exSerialEnv []) exState).2.trace
      = [IDN_QUERY, [79, 85, 84, 80, 32, 49, 10, 10]] ∧
    writtenBytes (Handle.session 0)
        (ItechDcPowerQuerySerial OUTP_ON (exSerialEnv []) exState).2.trace
      = [IDN_QUERY, [79, 85, 84, 80, 32, 49, 10, 10]] ∧
    [79, 85, 84, 80, 32, 49, 10, 10] ≠ cstr OUTP_ON := by
  decide

/-- C3, amended: for every command string that fits the command buffer (its
characters, the appended newline and the NUL take at most 512 bytes), when the
session open and the identification write succeed, the bytes transmitted in the
command-write step of `ItechDcPowerWriteSerial` and `ItechDcPowerQuerySerial`
are the command followed by exactly one newline, whether or not the command
already includes one; the message is built below index 512 of the buffer. -/
theorem serial_command_write_always_appends_newline (command : List CChar) (env : SerialEnv)
    (st0 : State) (hfit : strlen command + 2 ≤ 512)
    (hrm : VI_SUCCESS ≤ env.rmSt) (hopen : VI_SUCCESS ≤ env.dev.openSt)
    (hidn : VI_SUCCESS ≤ env.dev.idnWriteSt) :
    writtenBytes (Handle.session 0) (ItechDcPowerWriteSerial command env st0).2.trace
      = [IDN_QUERY, cstr command ++ [10]] ∧
    writtenBytes (Handle.session 0) (ItechDcPowerQuerySerial command env st0).2.trace
      = [IDN_QUERY, cstr command ++ [10]] ∧
    (ItechDcPowerWriteSerial command env st0).2.cmdTop ≤ 512 ∧
    (ItechDcPowerQuerySerial command env st0).2.cmdTop ≤ 512 := by
  refine ⟨?_, ?_, ?_, ?_⟩
  · rw [ItechDcPowerWriteSerial_trace]
    exact writtenBytes_serialCalls false command env (not_lt.2 hrm) (not_lt.2 hopen)
      (not_lt.2 hidn)
  · rw [ItechDcPowerQuerySerial_trace]
    exact writtenBytes_serialCalls true command env (not_lt.2 hrm) (not_lt.2 hopen)
      (not_lt.2 hidn)
  · have := ItechDcPowerWriteSerial_cmdTop_le command env st0
    omega
  · have := ItechDcPowerQuerySerial_cmdTop_le command env st0
    omega

/-- Witness of C3 (amended): the command `"MEAS?\n"` is sent as `"MEAS?\n\n"`. -/
theorem serial_command_write_always_appends_newline_witness :
    writtenBytes (Handle.session 0)
        (ItechDcPowerWriteSerial exCommand (exSerialEnv []) exState).2.trace
      = [IDN_QUERY, cstr exCommand ++ [10]] ∧
    writtenBytes (Handle.session 0)
        (ItechDcPowerQuerySerial exCommand (exSerialEnv []) exState).2.trace
      = [IDN_QUERY, cstr exCommand ++ [10]] ∧
    (ItechDcPowerWriteSerial exCommand (exSerialEnv []) exState).2.cmdTop ≤ 512 ∧
    (ItechDcPowerQuerySerial exCommand (exSerialEnv []) exState).2.cmdTop ≤ 512 :=
  serial_command_write_always_appends_newline exCommand (exSerialEnv []) exState
    (by decide) (by decide) (by decide) (by decide)

/-! ## The reply stored by the query operations -/

theorem strlen_le_length (s : List CChar) : strlen s ≤ s.length := by
  unfold strlen cstr
  induction s with
  | nil => simp
  | cons x xs ih =>
    by_cases hx : nonNul x = true
    · simp [List.takeWhile, hx]; exact ih
    · simp [List.takeWhile, hx]

theorem padded_length (bs : List CChar) : (padded bs).length = bs.length := by
  have := strlen_le_length bs
  simp [padded, strlen] at *
  omega

theorem cstr_of_no_nul (bs : List CChar) (h : 0 ∉ bs) : cstr bs = bs := by
  unfold cstr
  induction bs with
  | nil => simp
  | cons x xs ih =>
    have hx : nonNul x = true := by
      have : x ≠ 0 := fun e => h (by simp [e])
      simp [nonNul, this]
    have hxs : 0 ∉ xs := fun e => h (List.mem_cons_of_mem _ e)
    simp [List.takeWhile, hx, ih hxs]

theorem padded_of_no_nul (bs : List CChar) (h : 0 ∉ bs) : padded bs = bs := by
  simp [padded, strlen, cstr_of_no_nul bs h]

theorem poke_zero (mem bs : List CChar) : poke mem 0 bs = bs ++ mem.drop bs.length := by
  simp [poke]

theorem strncpy_poke (dst buf bs : List CChar) :
    strncpy dst (poke buf 0 bs) bs.length = padded bs ++ dst.drop bs.length := by
  have h1 : (poke buf 0 bs).take bs.length = bs := by simp [poke_zero]
  unfold strncpy
  rw [h1, poke_zero]
  have h2 := padded_length bs
  unfold padded at h2 ⊢
  rw [h2]

theorem storeReply_viRead_resultString (r : ReadReply) (st : State) :
    (storeReply (viRead r st)).resultString
      = padded (r.data.take 100) ++ st.resultString.drop (r.data.take 100).length := by
  simp only [storeReply_resultString, viRead_buffer, viRead_retCount, viRead_resultString]
  exact strncpy_poke _ _ _

theorem storeReply_viRead_result (r : ReadReply) (st : State) :
    (storeReply (viRead r st)).result
      = (sscanf_lf (cstr (r.data.take 100 ++ st.buffer.drop (r.data.take 100).length))).getD
          st.result := by
  simp [poke_zero]

theorem queryDevice_resultString_of_replies (command : List CChar) (i : Nat) (d : Device)
    (st : State) (hd : d.replies) :
    (queryDevice command i d st).resultString
      = padded (d.cmdRead.data.take 100) ++
          st.resultString.drop (d.cmdRead.data.take 100).length := by
  obtain ⟨h1, h2, h3, h4⟩ := hd
  unfold queryDevice
  simp only [not_lt.2 h1, not_lt.2 h2, not_lt.2 h3, not_lt.2 h4, if_false, viClose_resultString]
  rw [storeReply_viRead_resultString]
  by_cases hi : i > 0 <;> simp [hi]

theorem queryDevice_result_of_replies (command : List CChar) (i : Nat) (d : Device)
    (st : State) (hd : d.replies) :
    (queryDevice command i d st).result
      = (sscanf_lf (cstr (d.cmdRead.data.take 100 ++
          (poke st.buffer 0 (d.idnRead.data.take 100)).drop
            (d.cmdRead.data.take 100).length))).getD st.result := by
  obtain ⟨h1, h2, h3, h4⟩ := hd
  unfold queryDevice
  simp only [not_lt.2 h1, not_lt.2 h2, not_lt.2 h3, not_lt.2 h4, if_false, viClose_result]
  rw [storeReply_viRead_result]
  by_cases hi : i > 0 <;> simp [hi]

theorem queryDevice_of_not_replies (command : List CChar) (i : Nat) (d : Device)
    (st : State) (hd : ¬ d.replies) :
    (queryDevice command i d st).resultString = st.resultString ∧
    (queryDevice command i d st).result = st.result := by
  unfold Device.replies at hd
  unfold queryDevice
  by_cases hi : i > 0 <;> by_cases h1 : d.openSt < VI_SUCCESS <;>
    by_cases h2 : d.idnWriteSt < VI_SUCCESS <;> by_cases h3 : d.cmdWriteSt < VI_SUCCESS <;>
    by_cases h4 : d.cmdRead.status < VI_SUCCESS <;>
    simp [hi, h1, h2, h3, h4]
  exact absurd ⟨not_lt.1 h1, not_lt.1 h2, not_lt.1 h3, not_lt.1 h4⟩ hd
  exact absurd ⟨not_lt.1 h1, not_lt.1 h2, not_lt.1 h3, not_lt.1 h4⟩ hd

theorem usbLoop_query_of_not_replies (command : List CChar) (ds : List Device)
    (hds : ∀ d ∈ ds, ¬ d.replies) : ∀ (i : Nat) (st : State),
    (usbLoop (queryDevice command) i ds st).resultString = st.resultString ∧
    (usbLoop (queryDevice command) i ds st).result = st.result := by
  induction ds with
  | nil => intro i st; simp [usbLoop]
  | cons d ds ih =>
    intro i st
    have h1 := queryDevice_of_not_replies command i d st (hds d (List.mem_cons_self _ _))
    have h2 := ih (fun d1 hd1 => hds d1 (List.mem_cons_of_mem _ hd1)) (i + 1)
      (queryDevice command i d st)
    simp only [usbLoop]
    exact ⟨h2.1.trans h1.1, h2.2.trans h1.2⟩

theorem usbLoop_append (body : Nat → Device → State → State) (pre post : List Device) :
    ∀ (i : Nat) (st : State),
    usbLoop body i (pre ++ post) st = usbLoop body (i + pre.length) post (usbLoop body i pre st) := by
  induction pre with
  | nil => intro i st; simp [usbLoop]
  | cons d pre ih =>
    intro i st
    have e : i + 1 + pre.length = i + (pre.length + 1) := by omega
    have h := ih (i + 1) (body i d st)
    rw [e] at h
    simpa [usbLoop] using h

theorem ItechDcPowerQuery_state (command : List CChar) (env : UsbEnv) (st0 : State)
    (hrm : ¬ env.rmSt < VI_SUCCESS) (hfind : ¬ env.findSt < VI_SUCCESS) :
    (ItechDcPowerQuery command env st0).2
      = viCloseRM (usbLoop (queryDevice command) 0 env.devs
          (viFindRsrc env.findSt (viOpenDefaultRM env.rmSt st0.enter))) := by
  unfold ItechDcPowerQuery
  simp [hrm, hfind]

theorem ItechDcPowerQuerySerial_resultString (command : List CChar) (env : SerialEnv)
    (st0 : State) (hrm : VI_SUCCESS ≤ env.rmSt) (hd : env.dev.replies) :
    (ItechDcPowerQuerySerial command env st0).2.resultString
      = padded (env.dev.cmdRead.data.take 100) ++
          st0.resultString.drop (env.dev.cmdRead.data.take 100).length := by
  obtain ⟨h1, h2, h3, h4⟩ := hd
  unfold ItechDcPowerQuerySerial
  simp only [not_lt.2 hrm, not_lt.2 h1, not_lt.2 h2, not_lt.2 h3, not_lt.2 h4, if_false,
    serialClose_resultString]
  rw [storeReply_viRead_resultString]
  simp

theorem ItechDcPowerQuerySerial_result (command : List CChar) (env : SerialEnv)
    (st0 : State) (hrm : VI_SUCCESS ≤ env.rmSt) (hd : env.dev.replies) :
    (ItechDcPowerQuerySerial command env st0).2.result
      = (sscanf_lf (cstr (env.dev.cmdRead.data.take 100 ++
          (poke st0.buffer 0 (env.dev.idnRead.data.take 100)).drop
            (env.dev.cmdRead.data.take 100).length))).getD st0.result := by
  obtain ⟨h1, h2, h3, h4⟩ := hd
  unfold ItechDcPowerQuerySerial
  simp only [not_lt.2 hrm, not_lt.2 h1, not_lt.2 h2, not_lt.2 h3, not_lt.2 h4, if_false,
    serialClose_result]
  rw [storeReply_viRead_result]
  simp

/-- After a sweep whose last replying device is `d` (the devices `post` after it
do not reply), the result string is what `d` stored over what the devices `pre`
before it left. -/
theorem ItechDcPowerQuery_resultString (command : List CChar) (env : UsbEnv) (st0 : State)
    (pre post : List Device) (d : Device)
    (hrm : VI_SUCCESS ≤ env.rmSt) (hfind : VI_SUCCESS ≤ env.findSt)
    (hdevs : env.devs = pre ++ d :: post) (hd : d.replies) (hpost : ∀ p ∈ post, ¬ p.replies) :
    (ItechDcPowerQuery command env st0).2.resultString
      = padded (d.cmdRead.data.take 100) ++
          (ItechDcPowerQuery command { env with devs := pre } st0).2.resultString.drop
            (d.cmdRead.data.take 100).length := by
  rw [ItechDcPowerQuery_state command env st0 (not_lt.2 hrm) (not_lt.2 hfind),
    ItechDcPowerQuery_state command { env with devs := pre } st0 (not_lt.2 hrm) (not_lt.2 hfind)]
  simp only [viCloseRM_resultString, hdevs]
  rw [usbLoop_append]
  simp only [usbLoop]
  rw [(usbLoop_query_of_not_replies command post hpost _ _).1,
    queryDevice_resultString_of_replies command _ d _ hd]

/-! ## C4 -/

/-- C4, counterexample: (1) in `ItechDcPowerQuerySerial` a successful reply read
of the 3 bytes `'1', NUL, '2'` leaves `'1', NUL, NUL` in the first 3 bytes of the
result string; (2) in `ItechDcPowerQuery` over two devices, the first device's
reply `"12\n"` is read successfully, yet after the call the first 3 bytes of the
result string are `"7\n\n"`. -/
theorem result_string_differs_from_reply :
    (VI_SUCCESS ≤ (exSerialEnv [49, 0, 50]).dev.cmdRead.status ∧
     (exSerialEnv [49, 0, 50]).dev.cmdRead.data.length ≤ 100 ∧
     (ItechDcPowerQuerySerial exCommand (exSerialEnv [49, 0, 50]) exState).2.resultString.take 3
        = [49, 0, 0] ∧
     ([49, 0, 0] : List CChar) ≠ [49, 0, 50]) ∧
    ((ItechDcPowerQuery exCommand exEnvTwoReplies exState).2.trace.count
        (Call.read (Handle.session 0) 100 0) = 2 ∧
     (ItechDcPowerQuery exCommand exEnvTwoReplies exState).2.resultString.take 3
        = [55, 10, 10] ∧
     ([55, 10, 10] : List CChar) ≠ [49, 50, 10]) := by
  decide

/-- C4, amended: for every reply of `count ≤ 100` bytes with no NUL byte among
them, returned by a successful read of the command's response in
`ItechDcPowerQuerySerial`, or in `ItechDcPowerQuery` by the last device of the
sweep whose reply read is reached and succeeds, after the call the first `count`
bytes of the caller's result string are the bytes read. -/
theorem result_string_holds_nul_free_reply (command : List CChar) (st0 : State)
    (senv : SerialEnv) (uenv : UsbEnv) (pre post : List Device) (d : Device)
    (hsrm : VI_SUCCESS ≤ senv.rmSt) (hsd : senv.dev.replies)
    (hslen : senv.dev.cmdRead.data.length ≤ 100) (hsnul : 0 ∉ senv.dev.cmdRead.data)
    (hrm : VI_SUCCESS ≤ uenv.rmSt) (hfind : VI_SUCCESS ≤ uenv.findSt)
    (hdevs : uenv.devs = pre ++ d :: post) (hd : d.replies)
    (hpost : ∀ p ∈ post, ¬ p.replies)
    (hlen : d.cmdRead.data.length ≤ 100) (hnul : 0 ∉ d.cmdRead.data) :
    (ItechDcPowerQuerySerial command senv st0).2.resultString.take
        senv.dev.cmdRead.data.length = senv.dev.cmdRead.data ∧
    (ItechDcPowerQuery command uenv st0).2.resultString.take d.cmdRead.data.length
      = d.cmdRead.data := by
  constructor
  · rw [ItechDcPowerQuerySerial_resultString command senv st0 hsrm hsd,
      List.take_of_length_le hslen, padded_of_no_nul _ hsnul]
    simp
  · rw [ItechDcPowerQuery_resultString command uenv st0 pre post d hrm hfind hdevs hd hpost,
      List.take_of_length_le hlen, padded_of_no_nul _ hnul]
    simp

/-- Witness of C4 (amended): the reply `"12.345\n"`, on the serial port and from
the second of three USB devices, the third of which cannot be opened. -/
theorem result_string_holds_nul_free_reply_witness :
    (ItechDcPowerQuerySerial exCommand (exSerialEnv exReply) exState).2.resultString.take 7
      = [49, 50, 46, 51, 52, 53, 10] ∧
    (ItechDcPowerQuery exCommand exEnvLastReply exState).2.resultString.take 7
      = [49, 50, 46, 51, 52, 53, 10] :=
  result_string_holds_nul_free_reply exCommand exState (exSerialEnv exReply) exEnvLastReply
    [exDevice [55, 10]] [exDeadDevice] (exDevice exReply)
    (by decide) (by simp [Device.replies, exSerialEnv, exDevice, VI_SUCCESS])
    (by decide) (by decide) (by decide) (by decide) rfl
    (by simp [Device.replies, exDevice, VI_SUCCESS])
    (by simp [Device.replies, exDeadDevice, VI_SUCCESS])
    (by decide) (by decide)

/-! ## C5 -/

/-- C5: in each USB operation (`ItechDcPowerOutput`, `ItechDcPowerWrite`,
`ItechDcPowerQuery`), if the resource manager opens and resource enumeration then
fails with status `s`, the operation closes the resource manager, issues no
find-next, session open, write or read call, leaves the caller's result string
and result value untouched, and returns `s`. -/
theorem usb_enumeration_failure_returns_status (state : Nat) (command : List CChar)
    (env : UsbEnv) (st0 : State)
    (hrm : VI_SUCCESS ≤ env.rmSt) (hfind : env.findSt < VI_SUCCESS) :
    EnumerationFailed env.rmSt env.findSt st0 (ItechDcPowerOutput state env st0) ∧
    EnumerationFailed env.rmSt env.findSt st0 (ItechDcPowerWrite command env st0) ∧
    EnumerationFailed env.rmSt env.findSt st0 (ItechDcPowerQuery command env st0) := by
  have hrm1 : ¬ env.rmSt < VI_SUCCESS := not_lt.2 hrm
  refine ⟨⟨?_, ?_, ?_, ?_⟩, ⟨?_, ?_, ?_, ?_⟩, ⟨?_, ?_, ?_, ?_⟩⟩
  · simp [ItechDcPowerOutput_trace, usbCalls, hrm1, hfind]
  · simp [ItechDcPowerOutput, hrm1, hfind]
  · simp [ItechDcPowerOutput, hrm1, hfind]
  · simp [ItechDcPowerOutput_ret, hrm1, hfind]
  · simp [ItechDcPowerWrite_trace, usbCalls, hrm1, hfind]
  · simp [ItechDcPowerWrite, hrm1, hfind]
  · simp [ItechDcPowerWrite, hrm1, hfind]
  · simp [ItechDcPowerWrite_ret, hrm1, hfind]
  · simp [ItechDcPowerQuery_trace, usbCalls, hrm1, hfind]
  · simp [ItechDcPowerQuery, hrm1, hfind]
  · simp [ItechDcPowerQuery, hrm1, hfind]
  · simp [ItechDcPowerQuery_ret, hrm1, hfind]

/-- Witness of C5: enumeration fails with `VI_ERROR_RSRC_NFOUND`. -/
theorem usb_enumeration_failure_returns_status_witness :
    EnumerationFailed 0 (-1073807343) exState (ItechDcPowerOutput 1 exEnvNoResource exState) ∧
    EnumerationFailed 0 (-1073807343) exState
      (ItechDcPowerWrite exCommand exEnvNoResource exState) ∧
    EnumerationFailed 0 (-1073807343) exState
      (ItechDcPowerQuery exCommand exEnvNoResource exState) :=
  usb_enumeration_failure_returns_status 1 exCommand exEnvNoResource exState
    (by decide) (by decide)

/-! ## Session discipline -/

theorem sessionsOk_skip (live : Option Nat) (l rest : List Call)
    (hl : ∀ c ∈ l, (∃ h b s, c = Call.write h b s) ∨ (∃ h n s, c = Call.read h n s)) :
    sessionsOk live (l ++ rest) = sessionsOk live rest := by
  induction l with
  | nil => simp
  | cons c l ih =>
    have ih1 := ih (fun c1 h1 => hl c1 (List.mem_cons_of_mem _ h1))
    rcases hl c (List.mem_cons_self _ _) with ⟨h, b, s, rfl⟩ | ⟨h, n, s, rfl⟩ <;>
      simp [sessionsOk, ih1]

theorem sessionsOk_devCalls (ios : Nat → Device → List Call) (hios : IosOnSession ios)
    (i : Nat) (d : Device) (rest : List Call) :
    sessionsOk none (devCalls ios i d ++ rest) = sessionsOk none rest := by
  have hskip : sessionsOk (some i) (ios i d ++ (Call.close (Handle.session i) :: rest))
      = sessionsOk none rest := by
    rw [sessionsOk_skip (some i) (ios i d) _ (fun c hc => by
      rcases hios i d c hc with ⟨b, s, rfl⟩ | ⟨n, s, rfl⟩
      · exact Or.inl ⟨_, _, _, rfl⟩
      · exact Or.inr ⟨_, _, _, rfl⟩)]
    simp [sessionsOk]
  unfold devCalls
  by_cases hi : i > 0 <;> by_cases ho : d.openSt < VI_SUCCESS <;>
    simp [hi, ho, sessionsOk, hskip]

theorem sessionsOk_loopCalls (ios : Nat → Device → List Call) (hios : IosOnSession ios)
    (ds : List Device) (rest : List Call) : ∀ (i : Nat),
    sessionsOk none (loopCalls ios i ds ++ rest) = sessionsOk none rest := by
  induction ds with
  | nil => intro i; simp [loopCalls]
  | cons d ds ih =>
    intro i
    simp only [loopCalls, List.append_assoc]
    rw [sessionsOk_devCalls ios hios, ih]

theorem sessionsOk_usbCalls (ios : Nat → Device → List Call) (hios : IosOnSession ios)
    (env : UsbEnv) (hrm : ¬ env.rmSt < VI_SUCCESS) :
    sessionsOk none (usbCalls ios env) = true := by
  unfold usbCalls
  by_cases hf : env.findSt < VI_SUCCESS
  · simp [hrm, hf, sessionsOk]
  · simp only [hrm, hf, if_false, List.cons_append, List.nil_append, sessionsOk]
    rw [sessionsOk_loopCalls ios hios]
    simp [sessionsOk]

theorem count_closeRM_of_no_handle (l : List Call)
    (hl : ∀ c ∈ l, c ≠ Call.closeRM) : l.count Call.closeRM = 0 :=
  List.count_eq_zero.2 (fun h => hl _ h rfl)

theorem count_closeRM_devCalls (ios : Nat → Device → List Call) (hios : IosOnSession ios)
    (i : Nat) (d : Device) : (devCalls ios i d).count Call.closeRM = 0 := by
  apply count_closeRM_of_no_handle
  intro c hc
  unfold devCalls at hc
  rcases List.mem_append.1 hc with h1 | h1
  · split at h1
    · simp at h1; subst h1; simp
    · simp at h1
  · split at h1
    · simp at h1; subst h1; simp
    · simp only [List.mem_append, List.mem_cons, List.mem_singleton, List.not_mem_nil,
        or_false] at h1
      rcases h1 with (((h1 | h1) | h1) | h1)
      · subst h1; simp
      · subst h1; simp
      · rcases hios i d c h1 with ⟨b, s, rfl⟩ | ⟨n, s, rfl⟩ <;> simp
      · subst h1; simp

theorem count_closeRM_loopCalls (ios : Nat → Device → List Call) (hios : IosOnSession ios)
    (ds : List Device) : ∀ (i : Nat), (loopCalls ios i ds).count Call.closeRM = 0 := by
  induction ds with
  | nil => intro i; simp [loopCalls]
  | cons d ds ih =>
    intro i
    simp [loopCalls, List.count_append, count_closeRM_devCalls ios hios, ih]

theorem count_closeRM_usbCalls (ios : Nat → Device → List Call) (hios : IosOnSession ios)
    (env : UsbEnv) (hrm : ¬ env.rmSt < VI_SUCCESS) :
    (usbCalls ios env).count Call.closeRM = 1 := by
  unfold usbCalls
  by_cases hf : env.findSt < VI_SUCCESS
  · simp [hrm, hf, List.count_cons]
  · simp [hrm, hf, List.count_cons, List.count_append, count_closeRM_loopCalls ios hios]

theorem sessionsOk_serialCalls (query : Bool) (command : List CChar) (env : SerialEnv)
    (hrm : ¬ env.rmSt < VI_SUCCESS) :
    sessionsOk none (serialCalls query command env) = true ∧
    (serialCalls query command env).count Call.closeRM = 1 := by
  unfold serialCalls
  by_cases ho : env.dev.openSt < VI_SUCCESS <;>
    by_cases hw : env.dev.idnWriteSt < VI_SUCCESS <;> by_cases hq : query = true <;>
    by_cases hc : env.dev.cmdWriteSt < VI_SUCCESS <;>
    simp [hrm, ho, hw, hq, hc, portCalls, sessionsOk, List.count_cons]

theorem sessionsOk_count (i : Nat) (t : List Call) : ∀ (live : Option Nat),
    sessionsOk live t = true →
    t.count (Call.close (Handle.session i)) + (if live = some i then 0 else 1)
      = t.countP (isOpenOk i) + 1 := by
  induction t with
  | nil => intro live h; simp [sessionsOk] at h
  | cons c t ih =>
    intro live h
    cases c with
    | closeRM =>
      simp only [sessionsOk, Bool.and_eq_true, Option.isNone_iff_eq_none,
        List.isEmpty_iff] at h
      obtain ⟨h1, h2⟩ := h
      subst h1 h2
      simp [isOpenOk]
    | «open» j s =>
      simp only [sessionsOk, Bool.and_eq_true, Option.isNone_iff_eq_none] at h
      obtain ⟨h1, h2⟩ := h
      subst h1
      have := ih _ h2
      by_cases hs : s < VI_SUCCESS
      · simp [hs] at this
        simp [List.count_cons, List.countP_cons, isOpenOk, hs]
        omega
      · by_cases hj : j = i
        · subst hj
          simp [hs] at this
          simp [List.count_cons, List.countP_cons, isOpenOk, hs]
          omega
        · simp [hs, hj] at this
          simp [List.count_cons, List.countP_cons, isOpenOk, hs, hj]
          omega
    | close hd =>
      cases hd with
      | stale =>
        simp only [sessionsOk] at h
        have := ih _ h
        simp [List.count_cons, List.countP_cons, isOpenOk]
        omega
      | session j =>
        simp only [sessionsOk, Bool.and_eq_true, beq_iff_eq] at h
        obtain ⟨h1, h2⟩ := h
        subst h1
        have := ih _ h2
        by_cases hj : j = i
        · subst hj
          simp at this
          simp [List.count_cons, List.countP_cons, isOpenOk]
          omega
        · simp at this
          simp [List.count_cons, List.countP_cons, isOpenOk, hj]
          omega
    | openDefaultRM s =>
      simp only [sessionsOk] at h
      have := ih _ h
      simp [List.count_cons, List.countP_cons, isOpenOk]
      omega
    | findRsrc s =>
      simp only [sessionsOk] at h
      have := ih _ h
      simp [List.count_cons, List.countP_cons, isOpenOk]
      omega
    | findNext =>
      simp only [sessionsOk] at h
      have := ih _ h
      simp [List.count_cons, List.countP_cons, isOpenOk]
      omega
    | setAttribute hd at1 v =>
      simp only [sessionsOk] at h
      have := ih _ h
      simp [List.count_cons, List.countP_cons, isOpenOk]
      omega
    | write hd b w =>
      simp only [sessionsOk] at h
      have := ih _ h
      simp [List.count_cons, List.countP_cons, isOpenOk]
      omega
    | read hd n w =>
      simp only [sessionsOk] at h
      have := ih _ h
      simp [List.count_cons, List.countP_cons, isOpenOk]
      omega

theorem releasesSessions_of_log (r : Ret × State) (hret : ∃ v, r.1 = Ret.returned v)
    (hok : sessionsOk none r.2.trace = true) (hrm : r.2.trace.count Call.closeRM = 1) :
    ReleasesSessions r := by
  refine ⟨hret, hok, hrm, ?_⟩
  intro i
  have := sessionsOk_count i r.2.trace none hok
  simp at this
  exact this

/-! ## C6 -/

/-- C6: for every combination of transport outcomes in which the operation
returns (the resource manager opened), each instrument session that was
successfully opened is closed exactly once, before any later session is opened
and before the resource manager is closed, and the resource manager is closed
exactly once, as the last transport call.  This holds for the five operations. -/
theorem every_opened_session_is_released (state : Nat) (command : List CChar)
    (senv : SerialEnv) (uenv : UsbEnv) (st0 : State)
    (hs : VI_SUCCESS ≤ senv.rmSt) (hu : VI_SUCCESS ≤ uenv.rmSt) :
    ReleasesSessions (ItechDcPowerWriteSerial command senv st0) ∧
    ReleasesSessions (ItechDcPowerQuerySerial command senv st0) ∧
    ReleasesSessions (ItechDcPowerOutput state uenv st0) ∧
    ReleasesSessions (ItechDcPowerWrite command uenv st0) ∧
    ReleasesSessions (ItechDcPowerQuery command uenv st0) := by
  have hs1 : ¬ senv.rmSt < VI_SUCCESS := not_lt.2 hs
  have hu1 : ¬ uenv.rmSt < VI_SUCCESS := not_lt.2 hu
  have husb : ∀ (r : Ret × State) (ios : Nat → Device → List Call), IosOnSession ios →
      r.2.trace = usbCalls ios uenv →
      r.1 = (if uenv.rmSt < VI_SUCCESS then Ret.exited
        else if uenv.findSt < VI_SUCCESS then Ret.returned uenv.findSt else Ret.returned 0) →
      ReleasesSessions r := by
    intro r ios hios htr hret
    apply releasesSessions_of_log
    · rw [hret]
      by_cases hf : uenv.findSt < VI_SUCCESS
      · exact ⟨uenv.findSt, by simp [hu1, hf]⟩
      · exact ⟨0, by simp [hu1, hf]⟩
    · rw [htr]; exact sessionsOk_usbCalls ios hios uenv hu1
    · rw [htr]; exact count_closeRM_usbCalls ios hios uenv hu1
  have hser : ∀ (r : Ret × State) (query : Bool),
      r.2.trace = serialCalls query command senv →
      r.1 = (if senv.rmSt < VI_SUCCESS then Ret.exited else Ret.returned 0) →
      ReleasesSessions r := by
    intro r query htr hret
    apply releasesSessions_of_log
    · rw [hret]; exact ⟨0, by simp [hs1]⟩
    · rw [htr]; exact (sessionsOk_serialCalls _ _ _ hs1).1
    · rw [htr]; exact (sessionsOk_serialCalls _ _ _ hs1).2
  refine ⟨?_, ?_, ?_, ?_, ?_⟩
  · exact hser _ false (ItechDcPowerWriteSerial_trace command senv st0)
      (ItechDcPowerWriteSerial_ret command senv st0)
  · exact hser _ true (ItechDcPowerQuerySerial_trace command senv st0)
      (ItechDcPowerQuerySerial_ret command senv st0)
  · exact husb _ _ (outputIos_onSession state) (ItechDcPowerOutput_trace state uenv st0)
      (ItechDcPowerOutput_ret state uenv st0)
  · exact husb _ _ (writeIos_onSession command) (ItechDcPowerWrite_trace command uenv st0)
      (ItechDcPowerWrite_ret command uenv st0)
  · exact husb _ _ (queryIos_onSession command) (ItechDcPowerQuery_trace command uenv st0)
      (ItechDcPowerQuery_ret command uenv st0)

/-- Witness of C6: a serial port that answers, and three USB devices of which
one cannot be written to and one cannot be opened. -/
theorem every_opened_session_is_released_witness :
    ReleasesSessions (ItechDcPowerWriteSerial exCommand (exSerialEnv exReply) exState) ∧
    ReleasesSessions (ItechDcPowerQuerySerial exCommand (exSerialEnv exReply) exState) ∧
    ReleasesSessions (ItechDcPowerOutput 1 exEnvMixed exState) ∧
    ReleasesSessions (ItechDcPowerWrite exCommand exEnvMixed exState) ∧
    ReleasesSessions (ItechDcPowerQuery exCommand exEnvMixed exState) :=
  every_opened_session_is_released 1 exCommand (exSerialEnv exReply) exEnvMixed exState
    (by decide) (by decide)

/-! ## C7 -/

/-- C7: whenever the resource manager opens and, for the USB operations,
enumeration succeeds, each of the five operations returns 0 whatever the outcomes
of the session-open, write and read steps are (no hypothesis is made on them),
also when the single serial session cannot be opened. -/
theorem returns_zero_whatever_the_devices_do (state : Nat) (command : List CChar)
    (senv : SerialEnv) (uenv : UsbEnv) (st0 : State)
    (hs : VI_SUCCESS ≤ senv.rmSt) (hu : VI_SUCCESS ≤ uenv.rmSt)
    (hfind : VI_SUCCESS ≤ uenv.findSt) :
    (ItechDcPowerWriteSerial command senv st0).1 = Ret.returned 0 ∧
    (ItechDcPowerQuerySerial command senv st0).1 = Ret.returned 0 ∧
    (ItechDcPowerOutput state uenv st0).1 = Ret.returned 0 ∧
    (ItechDcPowerWrite command uenv st0).1 = Ret.returned 0 ∧
    (ItechDcPowerQuery command uenv st0).1 = Ret.returned 0 := by
  have hs1 : ¬ senv.rmSt < VI_SUCCESS := not_lt.2 hs
  have hu1 : ¬ uenv.rmSt < VI_SUCCESS := not_lt.2 hu
  have hf1 : ¬ uenv.findSt < VI_SUCCESS := not_lt.2 hfind
  refine ⟨?_, ?_, ?_, ?_, ?_⟩
  · simp [ItechDcPowerWriteSerial_ret, hs1]
  · simp [ItechDcPowerQuerySerial_ret, hs1]
  · simp [ItechDcPowerOutput_ret, hu1, hf1]
  · simp [ItechDcPowerWrite_ret, hu1, hf1]
  · simp [ItechDcPowerQuery_ret, hu1, hf1]

/-- Witness of C7: a serial port that cannot be opened, and three USB devices of
which one cannot be written to and one cannot be opened. -/
theorem returns_zero_whatever_the_devices_do_witness :
    (ItechDcPowerWriteSerial exCommand exSerialEnvDead exState).1 = Ret.returned 0 ∧
    (ItechDcPowerQuerySerial exCommand exSerialEnvDead exState).1 = Ret.returned 0 ∧
    (ItechDcPowerOutput 0 exEnvMixed exState).1 = Ret.returned 0 ∧
    (ItechDcPowerWrite exCommand exEnvMixed exState).1 = Ret.returned 0 ∧
    (ItechDcPowerQuery exCommand exEnvMixed exState).1 = Ret.returned 0 :=
  returns_zero_whatever_the_devices_do 0 exCommand exSerialEnvDead exEnvMixed exState
    (by decide) (by decide) (by decide)

/-! ## The last device of a query sweep -/

theorem ItechDcPowerQuery_snoc (command : List CChar) (env : UsbEnv) (st0 : State)
    (pre : List Device) (d : Device)
    (hrm : VI_SUCCESS ≤ env.rmSt) (hfind : VI_SUCCESS ≤ env.findSt)
    (hdevs : env.devs = pre ++ [d]) :
    ∃ st : State,
      (ItechDcPowerQuery command { env with devs := pre } st0).2 = viCloseRM st ∧
      (ItechDcPowerQuery command env st0).2
        = viCloseRM (queryDevice command pre.length d st) := by
  refine ⟨usbLoop (queryDevice command) 0 pre
    (viFindRsrc env.findSt (viOpenDefaultRM env.rmSt st0.enter)), ?_, ?_⟩
  · rw [ItechDcPowerQuery_state command { env with devs := pre } st0
      (not_lt.2 hrm) (not_lt.2 hfind)]
  · rw [ItechDcPowerQuery_state command env st0 (not_lt.2 hrm) (not_lt.2 hfind), hdevs,
      usbLoop_append]
    simp [usbLoop]

theorem cstr_append_of_no_nul (bs tail : List CChar) (h : 0 ∉ bs) :
    cstr (bs ++ tail) = bs ++ cstr tail := by
  unfold cstr
  induction bs with
  | nil => simp
  | cons x xs ih =>
    have hx : nonNul x = true := by
      have : x ≠ 0 := fun e => h (by simp [e])
      simp [nonNul, this]
    have hxs : 0 ∉ xs := fun e => h (List.mem_cons_of_mem _ e)
    simp [List.takeWhile, hx, ih hxs]

theorem sscanf_lf_exReply (tail : List CChar) :
    sscanf_lf (cstr (exReply ++ tail)) = some ⟨false, 12345, -3⟩ := by
  rw [cstr_append_of_no_nul exReply tail (by decide)]
  simp [exReply, sscanf_lf, scanSign, scanDigits, isdigit, isspace, List.dropWhile]

/-! ## Replies that are plain decimal numbers -/

theorem isspace_nonNul (c : CChar) (h : isspace c = true) : nonNul c = true := by
  by_cases h0 : c = 0
  · subst h0; exact absurd h (by decide)
  · simpa [nonNul] using h0

theorem isdigit_nonNul (c : CChar) (h : isdigit c = true) : nonNul c = true := by
  by_cases h0 : c = 0
  · subst h0; exact absurd h (by decide)
  · simpa [nonNul] using h0

theorem cstr_cons (c : CChar) (l : List CChar) :
    cstr (c :: l) = if nonNul c = true then c :: cstr l else [] := by
  simp [cstr, List.takeWhile]
  split <;> simp_all

theorem dropWhile_isspace_cstr_append (tail : List CChar) (r : List CChar)
    (h : r.dropWhile isspace ≠ []) :
    (cstr (r ++ tail)).dropWhile isspace = cstr (r.dropWhile isspace ++ tail) := by
  induction r with
  | nil => simp at h
  | cons c cs ih =>
    by_cases hc : isspace c = true
    · have hn := isspace_nonNul c hc
      have h1 : cs.dropWhile isspace ≠ [] := by simpa [List.dropWhile, hc] using h
      simp [cstr_cons, hn, List.dropWhile, hc, ih h1]
    · by_cases hn : nonNul c = true
      · simp [cstr_cons, hn, List.dropWhile, hc]
      · simp [cstr_cons, hn, List.dropWhile, hc]

theorem scanSign_cstr_append (tail : List CChar) (l : List CChar) (h : l ≠ []) :
    scanSign (cstr (l ++ tail)) = ((scanSign l).1, cstr ((scanSign l).2 ++ tail)) := by
  cases l with
  | nil => exact absurd rfl h
  | cons c cs =>
    by_cases h45 : c = 45
    · subst h45
      simp [cstr_cons, nonNul, scanSign]
    · by_cases h43 : c = 43
      · subst h43
        simp [cstr_cons, nonNul, scanSign]
      · have e1 : scanSign (c :: cs) = (false, c :: cs) := by
          unfold scanSign
          split <;> simp_all
        rw [e1]
        by_cases hn : nonNul c = true
        · simp only [List.cons_append, cstr_cons, hn, if_true]
          unfold scanSign
          split <;> simp_all
        · simp [cstr_cons, hn, scanSign]

theorem scanDigits_cstr_append (tail : List CChar) (l : List CChar) : ∀ (acc n : Nat),
    (scanDigits l acc n).2.2 ≠ [] →
    scanDigits (cstr (l ++ tail)) acc n
      = ((scanDigits l acc n).1, (scanDigits l acc n).2.1,
          cstr ((scanDigits l acc n).2.2 ++ tail)) := by
  induction l with
  | nil => intro acc n h; simp [scanDigits] at h
  | cons c cs ih =>
    intro acc n h
    by_cases hd : isdigit c = true
    · have hn := isdigit_nonNul c hd
      simp only [scanDigits, hd, if_true] at h ⊢
      simp only [List.cons_append, cstr_cons, hn, if_true, scanDigits, hd]
      exact ih _ _ h
    · by_cases hn : nonNul c = true
      · simp [scanDigits, hd, cstr_cons, hn]
      · simp [scanDigits, hd, cstr_cons, hn]


theorem sscanf_lf_of_plainDecimal (reply tail : List CChar) (v : Decimal)
    (h : plainDecimal reply = some v) : sscanf_lf (cstr (reply ++ tail)) = some v := by
  have hne : reply.dropWhile isspace ≠ [] := by
    intro he
    simp [plainDecimal, he, scanSign, scanDigits] at h
  have F1 := dropWhile_isspace_cstr_append tail reply hne
  have F2 := scanSign_cstr_append tail _ hne
  simp only [plainDecimal] at h
  generalize hsg : scanSign (reply.dropWhile isspace) = sg at h F2
  obtain ⟨neg, s2⟩ := sg
  simp only at h F2
  generalize hip : scanDigits s2 0 0 = ip at h
  obtain ⟨a, ni, s3⟩ := ip
  simp only at h
  cases s3 with
  | nil => simp at h
  | cons c3 cs3 =>
    have F3 := scanDigits_cstr_append tail s2 0 0 (by rw [hip]; simp)
    rw [hip] at F3
    simp only at F3
    by_cases h46 : c3 = 46
    · subst h46
      simp only at h
      generalize hfp : scanDigits cs3 a 0 = fp at h
      obtain ⟨m, nf, s4⟩ := fp
      simp only at h
      cases s4 with
      | nil => simp at h
      | cons t more =>
        have F4 := scanDigits_cstr_append tail cs3 a 0 (by rw [hfp]; simp)
        rw [hfp] at F4
        simp only at F4
        unfold sscanf_lf
        simp only [F1, F2, F3]
        have e46 : cstr (46 :: cs3 ++ tail) = 46 :: cstr (cs3 ++ tail) := by
          simp [cstr_cons, nonNul]
        simp only [e46, F4]
        by_cases hz : ni + nf = 0
        · simp [hz] at h
        · by_cases ht : t = 101 ∨ t = 69 ∨ t = 100 ∨ t = 68 ∨ t = 120 ∨ t = 88
          · simp [hz, ht] at h
          · simp only [hz, ht, if_false] at h
            have ht2 : ¬ (t = 101 ∨ t = 69) := fun h2 => ht (by tauto)
            by_cases hn : nonNul t = true
            · simp [hz, List.cons_append, cstr_cons, hn, ht2]
              simpa using h
            · simp [hz, List.cons_append, cstr_cons, hn]
              simpa using h
    · have F3a : scanDigits (cstr (s2 ++ tail)) 0 0 = (a, ni, cstr (c3 :: cs3 ++ tail)) := F3
      unfold sscanf_lf
      simp only [F1, F2, F3a]
      have hfp : (match c3 :: cs3 with
          | 46 :: r => scanDigits r a 0
          | _ => (a, 0, c3 :: cs3)) = (a, 0, c3 :: cs3) := by
        split
        · rename_i heq
          simp at heq
          exact absurd heq.1 h46
        · rfl
      rw [hfp] at h
      simp only at h
      by_cases hz : ni + 0 = 0
      · simp [hz] at h
      · by_cases ht : c3 = 101 ∨ c3 = 69 ∨ c3 = 100 ∨ c3 = 68 ∨ c3 = 120 ∨ c3 = 88
        · simp [hz, ht] at h
        · simp only [hz, ht, if_false] at h
          have ht2 : ¬ (c3 = 101 ∨ c3 = 69) := fun h2 => ht (by tauto)
          have hz1 : ¬ ni = 0 := by simpa using hz
          by_cases hn : nonNul c3 = true
          · simp [List.cons_append, cstr_cons, hn, h46, hz1, ht2]
            simpa using h
          · simp [List.cons_append, cstr_cons, hn, hz1]
            simpa using h

/-! ## C8 -/

theorem strlen_replicate (n : Nat) (c : CChar) (hc : c ≠ 0) :
    strlen (List.replicate n c) = n := by
  have h : cstr (List.replicate n c) = List.replicate n c :=
    cstr_of_no_nul _ (fun hmem => hc (List.eq_of_mem_replicate hmem).symm)
  simp [strlen, h]

theorem cmdTop_exEnvOne (command : List CChar) :
    (ItechDcPowerWrite command exEnvOne exState).2.cmdTop = max 7 (strlen command + 1) ∧
    (ItechDcPowerQuery command exEnvOne exState).2.cmdTop = max 7 (strlen command + 1) := by
  constructor
  · simp [ItechDcPowerWrite, exEnvOne, exDevice, usbLoop, writeDevice, VI_SUCCESS,
      strlen_IDN_QUERY]
  · simp [ItechDcPowerQuery, exEnvOne, exDevice, usbLoop, queryDevice, VI_SUCCESS,
      strlen_IDN_QUERY]

theorem cmdTop_exSerialEnv (command : List CChar) :
    (ItechDcPowerWriteSerial command (exSerialEnv exReply) exState).2.cmdTop
      = max (max 7 (strlen command + 1)) (strlen command + 2) ∧
    (ItechDcPowerQuerySerial command (exSerialEnv exReply) exState).2.cmdTop
      = max (max 7 (strlen command + 1)) (strlen command + 2) := by
  constructor
  · simp [ItechDcPowerWriteSerial, exSerialEnv, exDevice, VI_SUCCESS, strlen_strcpy,
      strlen_IDN_QUERY, strlen_NEWLINE]
  · simp [ItechDcPowerQuerySerial, exSerialEnv, exDevice, VI_SUCCESS, strlen_strcpy,
      strlen_IDN_QUERY, strlen_NEWLINE]

/-- C9, evaluation at the failing inputs: for a command of 512 characters `'A'`,
`ItechDcPowerWrite` and `ItechDcPowerQuery` store 513 bytes in the 512-byte
`stringinput` (the NUL goes to index 512); for a command of 511 characters, which
`strcpy` still stores within the buffer, `ItechDcPowerWriteSerial` and
`ItechDcPowerQuerySerial` store the NUL of the appended newline at index 512. -/
theorem long_command_overruns_command_buffer :
    (ItechDcPowerWrite (List.replicate 512 65) exEnvOne exState).2.cmdTop = 513 ∧
    (ItechDcPowerQuery (List.replicate 512 65) exEnvOne exState).2.cmdTop = 513 ∧
    (ItechDcPowerWriteSerial (List.replicate 511 65) (exSerialEnv exReply) exState).2.cmdTop
      = 513 ∧
    (ItechDcPowerQuerySerial (List.replicate 511 65) (exSerialEnv exReply) exState).2.cmdTop
      = 513 := by
  have h512 : strlen (List.replicate 512 65) = 512 := strlen_replicate 512 65 (by decide)
  have h511 : strlen (List.replicate 511 65) = 511 := strlen_replicate 511 65 (by decide)
  refine ⟨?_, ?_, ?_, ?_⟩
  · rw [(cmdTop_exEnvOne _).1, h512]; rfl
  · rw [(cmdTop_exEnvOne _).2, h512]; rfl
  · rw [(cmdTop_exSerialEnv _).1, h511]; rfl
  · rw [(cmdTop_exSerialEnv _).2, h511]; rfl

/-! ## C10 -/

/-- C10, evaluation at the failing input: two runs in which the reply read reports
the same count 1 and the same byte `"\n"`, and which differ only in what the
identification reply left beyond it in the buffer (`"A1\n"` or `"A2\n"`), end with
the values 1 and 2; the result strings are equal. -/
theorem value_depends_on_bytes_beyond_count :
    ((exDeviceBlankReply [65, 49, 10]).cmdRead = (exDeviceBlankReply [65, 50, 10]).cmdRead) ∧
    (ItechDcPowerQuerySerial exCommand ⟨0, exDeviceBlankReply [65, 49, 10]⟩ exState).2.result
      = ⟨false, 1, 0⟩ ∧
    (ItechDcPowerQuerySerial exCommand ⟨0, exDeviceBlankReply [65, 50, 10]⟩ exState).2.result
      = ⟨false, 2, 0⟩ ∧
    (ItechDcPowerQuery exCommand ⟨0, 0, [exDeviceBlankReply [65, 49, 10]]⟩ exState).2.result
      = ⟨false, 1, 0⟩ ∧
    (ItechDcPowerQuery exCommand ⟨0, 0, [exDeviceBlankReply [65, 50, 10]]⟩ exState).2.result
      = ⟨false, 2, 0⟩ ∧
    (ItechDcPowerQuerySerial exCommand ⟨0, exDeviceBlankReply [65, 49, 10]⟩
        exState).2.resultString
      = (ItechDcPowerQuerySerial exCommand ⟨0, exDeviceBlankReply [65, 50, 10]⟩
        exState).2.resultString ∧
    (ItechDcPowerQuery exCommand ⟨0, 0, [exDeviceBlankReply [65, 49, 10]]⟩
        exState).2.resultString
      = (ItechDcPowerQuery exCommand ⟨0, 0, [exDeviceBlankReply [65, 50, 10]]⟩
        exState).2.resultString ∧
    (Decimal.toRat ⟨false, 1, 0⟩ ≠ Decimal.toRat ⟨false, 2, 0⟩) := by
  refine ⟨by decide, by decide, by decide, by decide, by decide, by decide, by decide, ?_⟩
  simp [Decimal.toRat]

/-! ## C12 -/

theorem ItechDcPowerQuerySerial_of_not_replies (command : List CChar) (env : SerialEnv)
    (st0 : State) (hd : ¬ env.dev.replies) :
    (ItechDcPowerQuerySerial command env st0).2.result = st0.result ∧
    (ItechDcPowerQuerySerial command env st0).2.resultString = st0.resultString := by
  unfold Device.replies at hd
  unfold ItechDcPowerQuerySerial
  by_cases hrm : env.rmSt < VI_SUCCESS <;> by_cases h1 : env.dev.openSt < VI_SUCCESS <;>
    by_cases h2 : env.dev.idnWriteSt < VI_SUCCESS <;>
    by_cases h3 : env.dev.cmdWriteSt < VI_SUCCESS <;>
    by_cases h4 : env.dev.cmdRead.status < VI_SUCCESS <;>
    simp [hrm, h1, h2, h3, h4]
  exact absurd ⟨not_lt.1 h1, not_lt.1 h2, not_lt.1 h3, not_lt.1 h4⟩ hd

/-- C12: in `ItechDcPowerQuerySerial`, if the read of the command's reply fails,
the caller's result value and result string after the call are exactly those
before the call.  In `ItechDcPowerQuery`, if the read of the reply of device `d`
fails, the iteration for `d` (from any state `st`, at any loop index `i`) leaves
the result value and result string as they were, and the sweep over the devices
`pre` and then `d` ends with the value and string of the sweep over `pre`. -/
theorem failed_reply_read_leaves_result (command : List CChar) (st0 st : State)
    (senv : SerialEnv) (uenv : UsbEnv) (pre : List Device) (d : Device) (i : Nat)
    (hsread : senv.dev.cmdRead.status < VI_SUCCESS)
    (hrm : VI_SUCCESS ≤ uenv.rmSt) (hfind : VI_SUCCESS ≤ uenv.findSt)
    (hread : d.cmdRead.status < VI_SUCCESS) :
    ((ItechDcPowerQuerySerial command senv st0).2.result = st0.result ∧
     (ItechDcPowerQuerySerial command senv st0).2.resultString = st0.resultString) ∧
    ((queryDevice command i d st).result = st.result ∧
     (queryDevice command i d st).resultString = st.resultString) ∧
    ((ItechDcPowerQuery command { uenv with devs := pre ++ [d] } st0).2.result
        = (ItechDcPowerQuery command { uenv with devs := pre } st0).2.result ∧
     (ItechDcPowerQuery command { uenv with devs := pre ++ [d] } st0).2.resultString
        = (ItechDcPowerQuery command { uenv with devs := pre } st0).2.resultString) := by
  have hs : ¬ senv.dev.replies := fun h => absurd hsread (not_lt.2 h.2.2.2)
  have hd : ¬ d.replies := fun h => absurd hread (not_lt.2 h.2.2.2)
  refine ⟨ItechDcPowerQuerySerial_of_not_replies command senv st0 hs, ?_, ?_⟩
  · have := queryDevice_of_not_replies command i d st hd
    exact ⟨this.2, this.1⟩
  · obtain ⟨st1, hpre, hall⟩ := ItechDcPowerQuery_snoc command
      { uenv with devs := pre ++ [d] } st0 pre d hrm hfind rfl
    have hpre1 : (ItechDcPowerQuery command { uenv with devs := pre } st0).2 = viCloseRM st1 :=
      hpre
    rw [hpre1, hall]
    have := queryDevice_of_not_replies command pre.length d st1 hd
    simp only [viCloseRM_result, viCloseRM_resultString]
    exact ⟨this.2, this.1⟩

/-- Witness of C12: the reply read times out after storing `"9"`; on the serial
port, and on the second of two USB devices, the first of which answered `"7\n"`. -/
theorem failed_reply_read_leaves_result_witness :
    ((ItechDcPowerQuerySerial exCommand ⟨0, exDeviceReadFails [57]⟩ exState).2.result
        = exState.result ∧
     (ItechDcPowerQuerySerial exCommand ⟨0, exDeviceReadFails [57]⟩ exState).2.resultString
        = exState.resultString) ∧
    ((ItechDcPowerQuery exCommand (exEnvOf [exDevice [55, 10], exDeviceReadFails [57]])
        exState).2.result
        = (ItechDcPowerQuery exCommand (exEnvOf [exDevice [55, 10]]) exState).2.result ∧
     (ItechDcPowerQuery exCommand (exEnvOf [exDevice [55, 10], exDeviceReadFails [57]])
        exState).2.resultString
        = (ItechDcPowerQuery exCommand (exEnvOf [exDevice [55, 10]]) exState).2.resultString) :=
  ⟨(failed_reply_read_leaves_result exCommand exState exState ⟨0, exDeviceReadFails [57]⟩
      (exEnvOf []) [exDevice [55, 10]] (exDeviceReadFails [57]) 1
      (by decide) (by decide) (by decide) (by decide)).1,
   (failed_reply_read_leaves_result exCommand exState exState ⟨0, exDeviceReadFails [57]⟩
      (exEnvOf []) [exDevice [55, 10]] (exDeviceReadFails [57]) 1
      (by decide) (by decide) (by decide) (by decide)).2.2⟩

/-! ## C14 -/

theorem sameFrom_append_drop (p old : List CChar) :
    SameFrom p.length (p ++ old.drop p.length) old := by
  intro j hj
  rw [List.getElem?_append_right hj, List.getElem?_drop]
  congr 1
  omega

/-- C14: in `ItechDcPowerQuerySerial` and `ItechDcPowerQuery`, a successful reply
read of `count` bytes changes at most the first `count` bytes of the caller's
result string: every byte at an index `≥ count` is the one that was there before
the call (serial), before the iteration of that device (from any state `st`, at
any loop index `i`), and, for the sweep over the devices `pre` and then `d`, the
one the sweep over `pre` left; in particular the byte at index `count` is
unchanged, so no NUL terminator is stored after the reply. -/
theorem reply_leaves_bytes_beyond_count (command : List CChar) (st0 st : State)
    (senv : SerialEnv) (uenv : UsbEnv) (pre : List Device) (d : Device) (i : Nat)
    (hsrm : VI_SUCCESS ≤ senv.rmSt) (hsd : senv.dev.replies)
    (hrm : VI_SUCCESS ≤ uenv.rmSt) (hfind : VI_SUCCESS ≤ uenv.findSt) (hd : d.replies) :
    SameFrom (senv.dev.cmdRead.data.take 100).length
      (ItechDcPowerQuerySerial command senv st0).2.resultString st0.resultString ∧
    SameFrom (d.cmdRead.data.take 100).length
      (queryDevice command i d st).resultString st.resultString ∧
    SameFrom (d.cmdRead.data.take 100).length
      (ItechDcPowerQuery command { uenv with devs := pre ++ [d] } st0).2.resultString
      (ItechDcPowerQuery command { uenv with devs := pre } st0).2.resultString := by
  refine ⟨?_, ?_, ?_⟩
  · rw [ItechDcPowerQuerySerial_resultString command senv st0 hsrm hsd]
    have h := sameFrom_append_drop (padded (senv.dev.cmdRead.data.take 100)) st0.resultString
    rwa [padded_length] at h
  · rw [queryDevice_resultString_of_replies command i d st hd]
    have h := sameFrom_append_drop (padded (d.cmdRead.data.take 100)) st.resultString
    rwa [padded_length] at h
  · obtain ⟨st1, hpre, hall⟩ := ItechDcPowerQuery_snoc command
      { uenv with devs := pre ++ [d] } st0 pre d hrm hfind rfl
    have hpre1 : (ItechDcPowerQuery command { uenv with devs := pre } st0).2 = viCloseRM st1 :=
      hpre
    rw [hpre1, hall]
    simp only [viCloseRM_resultString]
    rw [queryDevice_resultString_of_replies command pre.length d st1 hd]
    have h := sameFrom_append_drop (padded (d.cmdRead.data.take 100)) st1.resultString
    rwa [padded_length] at h

/-- Witness of C14: the reply `"12.345\n"` (7 bytes) into a result string filled
with `'x'`; on the serial port, and from the second of two USB devices. -/
theorem reply_leaves_bytes_beyond_count_witness :
    SameFrom 7 (ItechDcPowerQuerySerial exCommand (exSerialEnv exReply)
      exStateFilled).2.resultString exStateFilled.resultString ∧
    SameFrom 7 (ItechDcPowerQuery exCommand (exEnvOf [exDevice [55, 10], exDevice exReply])
      exStateFilled).2.resultString
      (ItechDcPowerQuery exCommand (exEnvOf [exDevice [55, 10]])
      exStateFilled).2.resultString :=
  ⟨(reply_leaves_bytes_beyond_count exCommand exStateFilled exStateFilled
      (exSerialEnv exReply) (exEnvOf []) [exDevice [55, 10]] (exDevice exReply) 1
      (by decide) (by simp [Device.replies, exSerialEnv, exDevice, VI_SUCCESS])
      (by decide) (by decide) (by simp [Device.replies, exDevice, VI_SUCCESS])).1,
   (reply_leaves_bytes_beyond_count exCommand exStateFilled exStateFilled
      (exSerialEnv exReply) (exEnvOf []) [exDevice [55, 10]] (exDevice exReply) 1
      (by decide) (by simp [Device.replies, exSerialEnv, exDevice, VI_SUCCESS])
      (by decide) (by decide) (by simp [Device.replies, exDevice, VI_SUCCESS])).2.2⟩

/-! ## Input and output on open sessions -/

theorem ioOnLive_sound (pre : List Call) : ∀ (t : List Call) (live : Option Nat),
    IoOnLive live t → ∀ (post : List Call) (c : Call) (h : Handle),
    t = pre ++ c :: post → c.io? = some h →
    ∃ i, h = Handle.session i ∧
      ((∃ s pre1 pre2, pre = pre1 ++ Call.open i s :: pre2 ∧ VI_SUCCESS ≤ s ∧
          Call.close (Handle.session i) ∉ pre2) ∨
       (live = some i ∧ Call.close (Handle.session i) ∉ pre)) := by
  induction pre with
  | nil =>
    intro t live hm post c h ht hio
    subst ht
    cases c with
    | setAttribute h1 a v =>
      simp only [Call.io?, Option.some.injEq] at hio; subst hio
      obtain ⟨⟨i, hi, hl⟩, _⟩ := hm
      exact ⟨i, hi, Or.inr ⟨hl, by simp⟩⟩
    | write h1 b w =>
      simp only [Call.io?, Option.some.injEq] at hio; subst hio
      obtain ⟨⟨i, hi, hl⟩, _⟩ := hm
      exact ⟨i, hi, Or.inr ⟨hl, by simp⟩⟩
    | read h1 n w =>
      simp only [Call.io?, Option.some.injEq] at hio; subst hio
      obtain ⟨⟨i, hi, hl⟩, _⟩ := hm
      exact ⟨i, hi, Or.inr ⟨hl, by simp⟩⟩
    | _ => simp [Call.io?] at hio
  | cons a pre ih =>
    intro t live hm post c h ht hio
    subst ht
    have step : ∀ live1 : Option Nat, IoOnLive live1 (pre ++ c :: post) →
        (∀ i, live1 = some i → Call.close (Handle.session i) ∉ pre →
          (∃ s pre1 pre2, a :: pre = pre1 ++ Call.open i s :: pre2 ∧ VI_SUCCESS ≤ s ∧
            Call.close (Handle.session i) ∉ pre2) ∨
          (live = some i ∧ Call.close (Handle.session i) ∉ a :: pre)) →
        ∃ i, h = Handle.session i ∧
          ((∃ s pre1 pre2, a :: pre = pre1 ++ Call.open i s :: pre2 ∧ VI_SUCCESS ≤ s ∧
              Call.close (Handle.session i) ∉ pre2) ∨
           (live = some i ∧ Call.close (Handle.session i) ∉ a :: pre)) := by
      intro live1 hm1 hlive
      obtain ⟨i, hi, hdisj⟩ := ih _ live1 hm1 post c h rfl hio
      refine ⟨i, hi, ?_⟩
      rcases hdisj with ⟨s, p1, p2, e, hs, hc⟩ | ⟨hl, hc⟩
      · exact Or.inl ⟨s, a :: p1, p2, by simp [e], hs, hc⟩
      · exact hlive i hl hc
    cases a with
    | «open» j s =>
      apply step _ hm
      intro i hl hc
      by_cases hs : s < VI_SUCCESS
      · simp [hs] at hl
      · simp only [hs, if_false, Option.some.injEq] at hl
        subst hl
        exact Or.inl ⟨s, [], pre, by simp, not_lt.1 hs, hc⟩
    | close hd =>
      cases hd with
      | stale =>
        apply step live hm
        intro i hl hc
        exact Or.inr ⟨hl, by simp [hc]⟩
      | session j =>
        apply step _ hm
        intro i hl hc
        by_cases hj : live = some j
        · simp [hj] at hl
        · simp only [hj, if_false] at hl
          refine Or.inr ⟨hl, ?_⟩
          have hij : i ≠ j := fun e => hj (by rw [hl, e])
          simp [hc, hij]
    | setAttribute h1 at1 v =>
      apply step live hm.2
      intro i hl hc
      exact Or.inr ⟨hl, by simp [hc]⟩
    | write h1 b w =>
      apply step live hm.2
      intro i hl hc
      exact Or.inr ⟨hl, by simp [hc]⟩
    | read h1 n w =>
      apply step live hm.2
      intro i hl hc
      exact Or.inr ⟨hl, by simp [hc]⟩
    | openDefaultRM s =>
      apply step live hm
      intro i hl hc
      exact Or.inr ⟨hl, by simp [hc]⟩
    | findRsrc s =>
      apply step live hm
      intro i hl hc
      exact Or.inr ⟨hl, by simp [hc]⟩
    | findNext =>
      apply step live hm
      intro i hl hc
      exact Or.inr ⟨hl, by simp [hc]⟩
    | closeRM =>
      apply step live hm
      intro i hl hc
      exact Or.inr ⟨hl, by simp [hc]⟩

theorem ioOnOpenSession_of_ioOnLive (t : List Call) (hm : IoOnLive none t) :
    IoOnOpenSession t := by
  intro pre post c h ht hio
  obtain ⟨i, hi, hdisj⟩ := ioOnLive_sound pre t none hm post c h ht hio
  rcases hdisj with ⟨s, p1, p2, e, hs, hc⟩ | ⟨hl, _⟩
  · exact ⟨i, s, p1, p2, hi, e, hs, hc⟩
  · simp at hl

theorem ioOnLive_ios (i : Nat) (l rest : List Call)
    (hl : ∀ c ∈ l, (∃ b s, c = Call.write (Handle.session i) b s) ∨
      (∃ n s, c = Call.read (Handle.session i) n s))
    (hrest : IoOnLive (some i) rest) : IoOnLive (some i) (l ++ rest) := by
  induction l with
  | nil => simpa using hrest
  | cons c l ih =>
    have ih1 := ih (fun c1 h1 => hl c1 (List.mem_cons_of_mem _ h1))
    rcases hl c (List.mem_cons_self _ _) with ⟨b, s, rfl⟩ | ⟨n, s, rfl⟩
    · exact ⟨⟨i, rfl, rfl⟩, ih1⟩
    · exact ⟨⟨i, rfl, rfl⟩, ih1⟩

theorem ioOnLive_devCalls (ios : Nat → Device → List Call) (hios : IosOnSession ios)
    (i : Nat) (d : Device) (rest : List Call) (hrest : IoOnLive none rest) :
    IoOnLive none (devCalls ios i d ++ rest) := by
  have hclose : IoOnLive (some i) (Call.close (Handle.session i) :: rest) := by
    simpa [IoOnLive] using hrest
  have hio := ioOnLive_ios i (ios i d) _ (hios i d) hclose
  unfold devCalls
  by_cases hi : i > 0 <;> by_cases ho : d.openSt < VI_SUCCESS
  · simpa [hi, ho, IoOnLive] using hrest
  · simpa [hi, ho, IoOnLive] using hio
  · simpa [hi, ho, IoOnLive] using hrest
  · simpa [hi, ho, IoOnLive] using hio

theorem ioOnLive_loopCalls (ios : Nat → Device → List Call) (hios : IosOnSession ios)
    (ds : List Device) (rest : List Call) (hrest : IoOnLive none rest) : ∀ (i : Nat),
    IoOnLive none (loopCalls ios i ds ++ rest) := by
  induction ds with
  | nil => intro i; simpa [loopCalls] using hrest
  | cons d ds ih =>
    intro i
    simp only [loopCalls, List.append_assoc]
    exact ioOnLive_devCalls ios hios i d _ (ih (i + 1))

theorem ioOnLive_usbCalls (ios : Nat → Device → List Call) (hios : IosOnSession ios)
    (env : UsbEnv) : IoOnLive none (usbCalls ios env) := by
  unfold usbCalls
  by_cases hrm : env.rmSt < VI_SUCCESS
  · simp [hrm, IoOnLive]
  · by_cases hf : env.findSt < VI_SUCCESS
    · simp [hrm, hf, IoOnLive]
    · simp only [hrm, hf, if_false, List.cons_append, List.nil_append, IoOnLive]
      exact ioOnLive_loopCalls ios hios env.devs _ (by simp [IoOnLive]) 0

theorem ioOnLive_serialCalls (query : Bool) (command : List CChar) (env : SerialEnv) :
    IoOnLive none (serialCalls query command env) := by
  unfold serialCalls
  by_cases hrm : env.rmSt < VI_SUCCESS <;> by_cases ho : env.dev.openSt < VI_SUCCESS <;>
    by_cases hw : env.dev.idnWriteSt < VI_SUCCESS <;> by_cases hq : query = true <;>
    by_cases hc : env.dev.cmdWriteSt < VI_SUCCESS <;>
    simp [hrm, ho, hw, hq, hc, portCalls, IoOnLive]

theorem open_mem_devCalls (ios : Nat → Device → List Call) (hios : IosOnSession ios)
    (i : Nat) (d : Device) (j : Nat) (s : Int) (hmem : Call.open j s ∈ devCalls ios i d) :
    j = i ∧ s = d.openSt := by
  unfold devCalls at hmem
  rcases List.mem_append.1 hmem with h1 | h1
  · split at h1 <;> simp at h1
  · split at h1
    · simpa using h1
    · simp only [List.mem_append, List.mem_cons, List.mem_singleton, List.not_mem_nil,
        or_false] at h1
      rcases h1 with (((h1 | h1) | h1) | h1)
      · simpa using h1
      · simp at h1
      · rcases hios i d _ h1 with ⟨b, w, h2⟩ | ⟨n, w, h2⟩ <;> simp at h2
      · simp at h1

theorem open_mem_loopCalls (ios : Nat → Device → List Call) (hios : IosOnSession ios)
    (ds : List Device) : ∀ (i j : Nat) (s : Int), Call.open j s ∈ loopCalls ios i ds →
    ∃ n d, ds[n]? = some d ∧ j = i + n ∧ s = d.openSt := by
  induction ds with
  | nil => intro i j s hmem; simp [loopCalls] at hmem
  | cons d ds ih =>
    intro i j s hmem
    simp only [loopCalls, List.mem_append] at hmem
    rcases hmem with h1 | h1
    · obtain ⟨h2, h3⟩ := open_mem_devCalls ios hios i d j s h1
      exact ⟨0, d, by simp, by simpa using h2, h3⟩
    · obtain ⟨n, d1, hn, h2, h3⟩ := ih (i + 1) j s h1
      exact ⟨n + 1, d1, by simpa using hn, by omega, h3⟩

theorem open_mem_usbCalls (ios : Nat → Device → List Call) (hios : IosOnSession ios)
    (env : UsbEnv) (j : Nat) (s : Int) (hmem : Call.open j s ∈ usbCalls ios env) :
    ∃ d, env.devs[j]? = some d ∧ s = d.openSt := by
  unfold usbCalls at hmem
  split at hmem
  · simp at hmem
  · split at hmem
    · simp at hmem
    · simp only [List.mem_append, List.mem_cons, List.mem_singleton, List.not_mem_nil,
        or_false] at hmem
      rcases hmem with ((h1 | h1) | h1) | h1
      · simp at h1
      · simp at h1
      · obtain ⟨n, d, hn, h2, h3⟩ := open_mem_loopCalls ios hios env.devs 0 j s h1
        have hjn : j = n := by omega
        subst hjn
        exact ⟨d, hn, h3⟩
      · simp at h1

theorem noIoAfterFailedOpen_usbCalls (ios : Nat → Device → List Call)
    (hios : IosOnSession ios) (env : UsbEnv) : NoIoAfterFailedOpen (usbCalls ios env) := by
  intro i s hmem hs c hc hh
  obtain ⟨d, hd, hsd⟩ := open_mem_usbCalls ios hios env i s hmem
  obtain ⟨n, d1, hn, h1, h2⟩ := usbCalls_handle ios hios env c hc _ hh
  have hin : i = n := by simpa using h1
  subst hin
  rw [hd] at hn
  cases hn
  rw [hsd] at hs
  exact h2 hs

theorem noIoAfterFailedOpen_serialCalls (query : Bool) (command : List CChar)
    (env : SerialEnv) : NoIoAfterFailedOpen (serialCalls query command env) := by
  intro i s hmem hs c hc hh
  unfold serialCalls at hmem hc
  by_cases hrm : env.rmSt < VI_SUCCESS
  · simp [hrm] at hmem
  · by_cases ho : env.dev.openSt < VI_SUCCESS
    · simp only [hrm, ho, if_false, if_true, List.cons_append, List.nil_append,
        List.mem_cons, List.mem_singleton, List.not_mem_nil, or_false] at hc
      rcases hc with rfl | rfl | rfl | rfl <;> simp [Call.handle?] at hh
    · by_cases hw : env.dev.idnWriteSt < VI_SUCCESS <;> by_cases hq : query = true <;>
        by_cases hcw : env.dev.cmdWriteSt < VI_SUCCESS <;>
        simp [hrm, ho, hw, hq, hcw, portCalls] at hmem <;>
        exact ho (hmem.2 ▸ hs)

/-! ## C13 -/

/-- C13: in each of the five operations and for every combination of transport
outcomes (no hypothesis is made on the script), each set-attribute, write and
read call is issued on a session whose open in this call succeeded and which has
not been closed since; and after a failed session open no set-attribute, write,
read or close call is issued on a session of that device. -/
theorem io_only_on_open_sessions (state : Nat) (command : List CChar)
    (senv : SerialEnv) (uenv : UsbEnv) (st0 : State) :
    UsesOnlyOpenSessions (ItechDcPowerWriteSerial command senv st0) ∧
    UsesOnlyOpenSessions (ItechDcPowerQuerySerial command senv st0) ∧
    UsesOnlyOpenSessions (ItechDcPowerOutput state uenv st0) ∧
    UsesOnlyOpenSessions (ItechDcPowerWrite command uenv st0) ∧
    UsesOnlyOpenSessions (ItechDcPowerQuery command uenv st0) := by
  refine ⟨⟨?_, ?_⟩, ⟨?_, ?_⟩, ⟨?_, ?_⟩, ⟨?_, ?_⟩, ⟨?_, ?_⟩⟩
  · rw [ItechDcPowerWriteSerial_trace]
    exact ioOnOpenSession_of_ioOnLive _ (ioOnLive_serialCalls false command senv)
  · rw [ItechDcPowerWriteSerial_trace]
    exact noIoAfterFailedOpen_serialCalls false command senv
  · rw [ItechDcPowerQuerySerial_trace]
    exact ioOnOpenSession_of_ioOnLive _ (ioOnLive_serialCalls true command senv)
  · rw [ItechDcPowerQuerySerial_trace]
    exact noIoAfterFailedOpen_serialCalls true command senv
  · rw [ItechDcPowerOutput_trace]
    exact ioOnOpenSession_of_ioOnLive _ (ioOnLive_usbCalls _ (outputIos_onSession state) uenv)
  · rw [ItechDcPowerOutput_trace]
    exact noIoAfterFailedOpen_usbCalls _ (outputIos_onSession state) uenv
  · rw [ItechDcPowerWrite_trace]
    exact ioOnOpenSession_of_ioOnLive _ (ioOnLive_usbCalls _ (writeIos_onSession command) uenv)
  · rw [ItechDcPowerWrite_trace]
    exact noIoAfterFailedOpen_usbCalls _ (writeIos_onSession command) uenv
  · rw [ItechDcPowerQuery_trace]
    exact ioOnOpenSession_of_ioOnLive _ (ioOnLive_usbCalls _ (queryIos_onSession command) uenv)
  · rw [ItechDcPowerQuery_trace]
    exact noIoAfterFailedOpen_usbCalls _ (queryIos_onSession command) uenv

/-- Instance of C13: in the query sweep over three devices of which the second
cannot be opened, the reply read of the third device is preceded by the
successful open of that device, and no call is issued on a session of the second device. -/
theorem io_only_on_open_sessions_witness :
    (∃ i s pre1 pre2, Handle.session 2 = Handle.session i ∧
      [Call.openDefaultRM 0, Call.findRsrc 0, Call.open 0 0,
       Call.write (Handle.session 0) IDN_QUERY (-1), Call.close (Handle.session 0),
       Call.findNext, Call.open 1 (-1), Call.findNext, Call.open 2 0,
       Call.write (Handle.session 2) IDN_QUERY 0, Call.read (Handle.session 2) 100 0,
       Call.write (Handle.session 2) exCommand 0]
        = pre1 ++ Call.open i s :: pre2 ∧
      VI_SUCCESS ≤ s ∧ Call.close (Handle.session i) ∉ pre2) ∧
    (Call.read (Handle.session 2) 100 0).handle? ≠ some (Handle.session 1) :=
  ⟨(io_only_on_open_sessions 1 exCommand (exSerialEnv exReply) exEnvMixed exState).2.2.2.2.1
      _ [Call.close (Handle.session 2), Call.closeRM] (Call.read (Handle.session 2) 100 0)
      (Handle.session 2) (by decide) rfl,
   (io_only_on_open_sessions 1 exCommand (exSerialEnv exReply) exEnvMixed exState).2.2.2.2.2
      1 (-1) (by decide) (by decide) (Call.read (Handle.session 2) 100 0) (by decide)⟩

/-! ## What follows a failed write -/

theorem failedWritesOk_sound (n : Nat) (pre : List Call) : ∀ (t : List Call),
    FailedWritesOk n t → ∀ (post : List Call) (h : Handle) (bytes : List CChar) (s : Int),
    t = pre ++ Call.write h bytes s :: post → s < VI_SUCCESS →
    ClosesThenContinues n h post := by
  induction pre with
  | nil =>
    intro t hm post h bytes s ht hs
    subst ht
    exact hm.1 hs
  | cons a pre ih =>
    intro t hm post h bytes s ht hs
    subst ht
    have hm1 : FailedWritesOk n (pre ++ Call.write h bytes s :: post) := by
      cases a with
      | write h1 b1 s1 => exact hm.2
      | _ => exact hm
    exact ih _ hm1 post h bytes s rfl hs

theorem outputIos_stop (n state : Nat) : IosStopAtFailedWrite n (outputIos state) := by
  intro i d tail
  unfold outputIos
  by_cases hw : d.idnWriteSt < VI_SUCCESS
  · simp [hw, FailedWritesOk]
  · simp only [hw, if_false, List.cons_append, List.nil_append, FailedWritesOk]
    exact ⟨fun h => absurd h (by simp), fun h1 h2 => ⟨fun _ => h1, h2⟩⟩

theorem writeIos_stop (n : Nat) (command : List CChar) :
    IosStopAtFailedWrite n (writeIos command) := by
  intro i d tail
  unfold writeIos
  by_cases hw : d.idnWriteSt < VI_SUCCESS
  · simp [hw, FailedWritesOk]
  · simp only [hw, if_false, List.cons_append, List.nil_append, FailedWritesOk]
    exact ⟨fun h => absurd h (by simp), fun h1 h2 => ⟨fun _ => h1, h2⟩⟩

theorem queryIos_stop (n : Nat) (command : List CChar) :
    IosStopAtFailedWrite n (queryIos command) := by
  intro i d tail
  unfold queryIos
  by_cases hw : d.idnWriteSt < VI_SUCCESS
  · simp [hw, FailedWritesOk]
  · by_cases hc : d.cmdWriteSt < VI_SUCCESS
    · simp only [hw, hc, if_false, if_true, List.cons_append, List.nil_append,
        List.append_nil, FailedWritesOk]
      exact ⟨fun h => absurd h (by simp), fun h1 h2 => ⟨fun _ => h1, h2⟩⟩
    · simp only [hw, hc, if_false, List.cons_append, List.nil_append, FailedWritesOk]
      exact ⟨fun h => absurd h (by simp), fun _ h2 => ⟨fun h => h.elim, h2⟩⟩

theorem failedWritesOk_devCalls (n : Nat) (ios : Nat → Device → List Call)
    (hstop : IosStopAtFailedWrite n ios) (i : Nat) (d : Device) (rest : List Call)
    (hctc : ClosesThenContinues n (Handle.session i) (Call.close (Handle.session i) :: rest))
    (hrest : FailedWritesOk n rest) :
    FailedWritesOk n (devCalls ios i d ++ rest) := by
  obtain ⟨hnil, hio⟩ := hstop i d rest
  have h2 := hio hctc hrest
  have h1 : d.idnWriteSt < VI_SUCCESS →
      ClosesThenContinues n (Handle.session i)
        (ios i d ++ Call.close (Handle.session i) :: rest) := by
    intro hw
    rw [hnil hw]
    exact hctc
  unfold devCalls
  by_cases hi : i > 0 <;> by_cases ho : d.openSt < VI_SUCCESS
  · simpa [hi, ho, FailedWritesOk] using hrest
  · simpa [hi, ho, FailedWritesOk] using ⟨h1, h2⟩
  · simpa [hi, ho, FailedWritesOk] using hrest
  · simpa [hi, ho, FailedWritesOk] using ⟨h1, h2⟩

theorem failedWritesOk_loopCalls (n : Nat) (ios : Nat → Device → List Call)
    (hios : IosOnSession ios) (hstop : IosStopAtFailedWrite n ios) (ds : List Device) :
    ∀ (i : Nat), i + ds.length = n →
    FailedWritesOk n (loopCalls ios i ds ++ [Call.closeRM]) := by
  induction ds with
  | nil => intro i _; simp [loopCalls, FailedWritesOk]
  | cons d ds ih =>
    intro i hn
    have hn1 : i + 1 + ds.length = n := by simp at hn; omega
    simp only [loopCalls, List.append_assoc]
    apply failedWritesOk_devCalls n ios hstop i d _ _ (ih (i + 1) hn1)
    refine ⟨_, rfl, ?_, i, rfl, loopCalls_continues ios i n ds hn1⟩
    intro c hc hh
    rcases List.mem_append.1 hc with h1 | h1
    · obtain ⟨m, d1, _, h2, _⟩ := loopCalls_handle ios hios ds (i + 1) c h1 _ hh
      injection h2 with h3
      omega
    · simp at h1
      subst h1
      simp [Call.handle?] at hh

theorem failedWritesOk_usbCalls (ios : Nat → Device → List Call) (hios : IosOnSession ios)
    (env : UsbEnv) (hstop : IosStopAtFailedWrite env.devs.length ios) :
    FailedWritesOk env.devs.length (usbCalls ios env) := by
  unfold usbCalls
  by_cases hrm : env.rmSt < VI_SUCCESS
  · simp [hrm, FailedWritesOk]
  · by_cases hf : env.findSt < VI_SUCCESS
    · simp [hrm, hf, FailedWritesOk]
    · simp only [hrm, hf, if_false, List.cons_append, List.nil_append, FailedWritesOk,
        List.append_assoc]
      exact failedWritesOk_loopCalls _ ios hios hstop env.devs 0 (by simp)

theorem serial_closesThenContinues :
    ClosesThenContinues 1 (Handle.session 0) [Call.close (Handle.session 0), Call.closeRM] :=
  ⟨[Call.closeRM], rfl, by simp [Call.handle?], 0, rfl, Or.inl ⟨rfl, rfl⟩⟩

theorem failedWritesOk_serialCalls (query : Bool) (command : List CChar) (env : SerialEnv) :
    FailedWritesOk 1 (serialCalls query command env) := by
  have hctc := serial_closesThenContinues
  unfold serialCalls
  by_cases hrm : env.rmSt < VI_SUCCESS <;> by_cases ho : env.dev.openSt < VI_SUCCESS <;>
    by_cases hw : env.dev.idnWriteSt < VI_SUCCESS <;> by_cases hq : query = true <;>
    by_cases hc : env.dev.cmdWriteSt < VI_SUCCESS <;>
    simp [hrm, ho, hw, hq, hc, portCalls, FailedWritesOk, hctc]

/-! ## C11 -/

/-- C11: in each of the five operations and for every combination of transport
outcomes, if a write on a session fails (the identification probe or the
command), the next transport call is the close of that session and no later call
is issued on it; the close is followed by the close of the resource manager in
the serial operations, and in the USB operations by the find-next and open of the
next enumerated device, or by the close of the resource manager when the device
was the last one enumerated. -/
theorem failed_write_closes_session (state : Nat) (command : List CChar)
    (senv : SerialEnv) (uenv : UsbEnv) (st0 : State) :
    FailedWriteEndsSession 1 (ItechDcPowerWriteSerial command senv st0).2.trace ∧
    FailedWriteEndsSession 1 (ItechDcPowerQuerySerial command senv st0).2.trace ∧
    FailedWriteEndsSession uenv.devs.length (ItechDcPowerOutput state uenv st0).2.trace ∧
    FailedWriteEndsSession uenv.devs.length (ItechDcPowerWrite command uenv st0).2.trace ∧
    FailedWriteEndsSession uenv.devs.length (ItechDcPowerQuery command uenv st0).2.trace := by
  refine ⟨?_, ?_, ?_, ?_, ?_⟩
  · rw [ItechDcPowerWriteSerial_trace]
    intro pre post h bytes s ht hs
    exact failedWritesOk_sound 1 pre _ (failedWritesOk_serialCalls false command senv)
      post h bytes s ht hs
  · rw [ItechDcPowerQuerySerial_trace]
    intro pre post h bytes s ht hs
    exact failedWritesOk_sound 1 pre _ (failedWritesOk_serialCalls true command senv)
      post h bytes s ht hs
  · rw [ItechDcPowerOutput_trace]
    intro pre post h bytes s ht hs
    exact failedWritesOk_sound _ pre _
      (failedWritesOk_usbCalls _ (outputIos_onSession state) uenv (outputIos_stop _ state))
      post h bytes s ht hs
  · rw [ItechDcPowerWrite_trace]
    intro pre post h bytes s ht hs
    exact failedWritesOk_sound _ pre _
      (failedWritesOk_usbCalls _ (writeIos_onSession command) uenv (writeIos_stop _ command))
      post h bytes s ht hs
  · rw [ItechDcPowerQuery_trace]
    intro pre post h bytes s ht hs
    exact failedWritesOk_sound _ pre _
      (failedWritesOk_usbCalls _ (queryIos_onSession command) uenv (queryIos_stop _ command))
      post h bytes s ht hs

/-- Instance of C11: the serial port rejects the identification probe of
`ItechDcPowerWriteSerial`, and the first of three USB devices rejects the probe of
`ItechDcPowerQuery`. -/
theorem failed_write_closes_session_witness :
    ClosesThenContinues 1 (Handle.session 0) [Call.close (Handle.session 0), Call.closeRM] ∧
    ClosesThenContinues 3 (Handle.session 0)
      [Call.close (Handle.session 0), Call.findNext, Call.open 1 (-1), Call.findNext,
       Call.open 2 0, Call.write (Handle.session 2) IDN_QUERY 0,
       Call.read (Handle.session 2) 100 0, Call.write (Handle.session 2) exCommand 0,
       Call.read (Handle.session 2) 100 0, Call.close (Handle.session 2), Call.closeRM] :=
  ⟨(failed_write_closes_session 1 exCommand exSerialEnvWriteFails exEnvMixed exState).1
      ([Call.openDefaultRM 0, Call.open 0 0] ++ portCalls (Handle.session 0)) _
      (Handle.session 0) IDN_QUERY (-1) (by decide) (by decide),
   (failed_write_closes_session 1 exCommand exSerialEnvWriteFails exEnvMixed exState).2.2.2.2
      [Call.openDefaultRM 0, Call.findRsrc 0, Call.open 0 0] _
      (Handle.session 0) IDN_QUERY (-1) (by decide) (by decide)⟩

end Itech
